import Mathlib

set_option maxRecDepth 16000

/-!
# Verification of the bzd-taper schedule-generation engine

Shallow embedding of `src/taper_gen.py` over exact rational arithmetic.
Python floats are modelled as `ℚ`; Python's `round` builtin (round half to
even, "banker's rounding") is modelled by `pyRound`, and `round(x, 2)` by
`round2`.  Calendar dates are modelled by their proleptic-Gregorian ordinal
(`datetime.date.toordinal`): `datetime.date.max = 9999-12-31` has ordinal
3652059 and `date(2100, 12, 31)` has ordinal 767009, so the source's
`current_date.year > 2100` test is `ordinal > 767009`.  Fallible code
returns `Except String`; the strings are the source's error messages.

The four rational field operations are spelt out via the smart constructor
`mkRat` (`qadd`, `qsub`, `qmul`, `qdiv`) because the library's `Rat.add`,
`Rat.sub`, `Rat.mul`, `Rat.inv` are `@[irreducible]`, which would keep the
kernel and `decide` from ever evaluating the engine on a concrete input.
The lemmas `qadd_eq`, `qsub_eq`, `qmul_eq`, `qdiv_eq` prove them equal to
the ordinary `+`, `-`, `*`, `/` of `ℚ`, so every definition below can be
read with ordinary field arithmetic in place of the `q`-operations.
-/

namespace BzdTaper

/-- `a + b` on `ℚ`, spelt via `mkRat` so that it is kernel-reducible. -/
def qadd (a b : ℚ) : ℚ := mkRat (a.num * b.den + b.num * a.den) (a.den * b.den)

/-- `a - b` on `ℚ`, spelt via `mkRat` so that it is kernel-reducible. -/
def qsub (a b : ℚ) : ℚ := mkRat (a.num * b.den - b.num * a.den) (a.den * b.den)

/-- `a * b` on `ℚ`, spelt via `mkRat` so that it is kernel-reducible. -/
def qmul (a b : ℚ) : ℚ := mkRat (a.num * b.num) (a.den * b.den)

/-- `a / b` on `ℚ` (with `a / 0 = 0` as in Lean), spelt via `Rat.divInt`
so that it is kernel-reducible. -/
def qdiv (a b : ℚ) : ℚ := Rat.divInt (a.num * b.den) (a.den * b.num)

theorem num_mul_den (a : ℚ) : (a.num : ℚ) = a * a.den :=
  (div_eq_iff (by exact_mod_cast a.den_nz)).mp (Rat.num_div_den a)

theorem qadd_eq (a b : ℚ) : qadd a b = a + b := by
  have hd : ((a.den : ℚ) * b.den) ≠ 0 :=
    mul_ne_zero (by exact_mod_cast a.den_nz) (by exact_mod_cast b.den_nz)
  rw [qadd, Rat.mkRat_eq_div]
  push_cast
  rw [div_eq_iff hd, num_mul_den, num_mul_den]
  ring

theorem qsub_eq (a b : ℚ) : qsub a b = a - b := by
  have hd : ((a.den : ℚ) * b.den) ≠ 0 :=
    mul_ne_zero (by exact_mod_cast a.den_nz) (by exact_mod_cast b.den_nz)
  rw [qsub, Rat.mkRat_eq_div]
  push_cast
  rw [div_eq_iff hd, num_mul_den, num_mul_den]
  ring

theorem qmul_eq (a b : ℚ) : qmul a b = a * b := by
  have hd : ((a.den : ℚ) * b.den) ≠ 0 :=
    mul_ne_zero (by exact_mod_cast a.den_nz) (by exact_mod_cast b.den_nz)
  rw [qmul, Rat.mkRat_eq_div]
  push_cast
  rw [div_eq_iff hd, num_mul_den, num_mul_den]
  ring

theorem qdiv_eq (a b : ℚ) : qdiv a b = a / b := by
  rcases eq_or_ne b 0 with hb | hb
  · subst hb
    simp [qdiv, Rat.zero_num, Rat.zero_den]
  · have hbn : (b.num : ℚ) ≠ 0 := by
      exact_mod_cast Rat.num_ne_zero.mpr hb
    have hd : ((a.den : ℚ) * b.num) ≠ 0 :=
      mul_ne_zero (by exact_mod_cast a.den_nz) hbn
    rw [qdiv, Rat.divInt_eq_div]
    push_cast
    rw [div_eq_div_iff hd hb, num_mul_den, num_mul_den]
    ring

/-- `⌊x⌋` computed on the normalised numerator and denominator (integer `/`
is Euclidean division, which is floor division for a positive divisor);
spelt out so that the kernel can evaluate it (`Int.floor` is irreducible). -/
def ratFloor (x : ℚ) : ℤ := x.num / (x.den : ℤ)

theorem ratFloor_eq (x : ℚ) : ratFloor x = ⌊x⌋ := Rat.floor_def.symm

/-- Python's `round` builtin on a rational: round half to even. -/
def pyRound (x : ℚ) : ℤ :=
  let f : ℤ := ratFloor x
  let r : ℚ := qsub x f
  if r < mkRat 1 2 then f
  else if r > mkRat 1 2 then f + 1
  else if f % 2 = 0 then f else f + 1

/-- Python's `round(x, 2)`: round half to even at two decimal places. -/
def round2 (x : ℚ) : ℚ := qdiv (pyRound (qmul x 100) : ℚ) 100

/-- `EQUIVALENTS_TO_DIAZEPAM_MG` from `taper_gen.py`: mg of each drug
equivalent to 10 mg diazepam. -/
def EQUIVALENTS_TO_DIAZEPAM_MG : List (String × ℚ) :=
  [("alprazolam", mkRat 1 2), ("clonazepam", mkRat 1 2), ("lorazepam", 1),
   ("temazepam", 10), ("oxazepam", 15), ("chlordiazepoxide", 25),
   ("diazepam", 10)]

/-- `AVAILABLE_STRENGTHS` from `taper_gen.py`. -/
def AVAILABLE_STRENGTHS : List (String × List ℚ) :=
  [("diazepam", [10, 5, 2]),
   ("clonazepam", [2, 1, mkRat 1 2]),
   ("alprazolam", [2, 1, mkRat 1 2, mkRat 1 4])]

/-- Python's `str.lower()` (the names in play are ASCII), spelt out
character by character so that the kernel can evaluate it. -/
def strLower (s : String) : String := String.mk (s.data.map Char.toLower)

/-- `convert_to_diazepam(dose_mg, med_name)`: case-folded table lookup;
raises `ValueError` for an absent name, else `round(dose_mg * ratio, 2)`
with `ratio = 10.0 / EQUIVALENTS_TO_DIAZEPAM_MG[med_name]`. -/
def convert_to_diazepam (dose_mg : ℚ) (med_name : String) : Except String ℚ :=
  let med := strLower med_name
  match EQUIVALENTS_TO_DIAZEPAM_MG.lookup med with
  | none => .error ("Unsupported medication: " ++ med ++
      ". Must be converted to diazepam before tapering.")
  | some v => .ok (round2 (qmul dose_mg (qdiv 10 v)))

/-- `even_split(total, parts)`: `base = round(total/parts, 2)` replicated,
with the rounded remainder added onto the last part. -/
def even_split (total : ℚ) (parts : ℕ) : List ℚ :=
  let base := round2 (qdiv total (parts : ℚ))
  let split := List.replicate parts base
  split.dropLast ++
    (match split.getLast? with
     | none => []
     | some last => [qadd last (round2 (qsub total (qmul (parts : ℚ) base)))])

/-- Insert into a descending-sorted list (used to model Python's
`sorted(strengths, reverse=True)`). -/
def insertDesc (x : ℚ) : List ℚ → List ℚ
  | [] => [x]
  | y :: ys => if x ≥ y then x :: y :: ys else y :: insertDesc x ys

/-- `sorted(l, reverse=True)`. -/
def sortDesc (l : List ℚ) : List ℚ := l.foldr insertDesc []

/-- The greedy pass of `get_pill_combination`: for each strength from the
largest down, take `int(remaining // s)` whole tablets when positive and
round the new remainder to 2 decimals.  The combination is an association
list in insertion order (a Python dict preserves insertion order). -/
def greedyPass : List ℚ → ℚ → List (ℚ × ℚ) → List (ℚ × ℚ) × ℚ
  | [], rem, combo => (combo, rem)
  | s :: rest, rem, combo =>
      let count : ℤ := ratFloor (qdiv rem s)
      if count > 0 then
        greedyPass rest (round2 (qsub rem (qmul (count : ℚ) s))) (combo ++ [(s, (count : ℚ))])
      else greedyPass rest rem combo

/-- Python's `min(strengths, key=lambda x: abs(x - remaining))`: the first
element (in list order) with minimal distance to `remaining`. -/
def closestStrength (rem : ℚ) : List ℚ → ℚ
  | [] => 0
  | s :: rest =>
      rest.foldl (fun best x => if |qsub x rem| < |qsub best rem| then x else best) s

/-- `combo[closest] = combo.get(closest, 0) + 0.5`: bump an existing key in
place or append a new one (insertion-order dict update). -/
def bumpHalf (combo : List (ℚ × ℚ)) (s : ℚ) : List (ℚ × ℚ) :=
  if combo.any (fun p => p.1 = s) then
    combo.map (fun p => if p.1 = s then (p.1, qadd p.2 (mkRat 1 2)) else p)
  else combo ++ [(s, mkRat 1 2)]

/-- Minimum of a strengths list (`min(strengths)`; the source only calls it
on the non-empty fixed strength sets). -/
def minStrength : List ℚ → ℚ
  | [] => 0
  | s :: rest => rest.foldl min s

/-- `get_pill_combination(dose_mg, med_name)` from `taper_gen.py`.  (The
Python `KeyError` on a medication absent from `AVAILABLE_STRENGTHS` is not
modelled; the engine only ever passes `"diazepam"`.) -/
def get_pill_combination (dose_mg : ℚ) (med_name : String) : List (ℚ × ℚ) :=
  let strengths := sortDesc ((AVAILABLE_STRENGTHS.lookup med_name).getD [])
  let (combo, remaining) := greedyPass strengths dose_mg []
  if 0 < remaining ∧ remaining < minStrength strengths then
    bumpHalf combo (closestStrength remaining strengths)
  else combo

/-- `sum(k * v for k, v in combo.items())`. -/
def comboTotal (combo : List (ℚ × ℚ)) : ℚ :=
  combo.foldl (fun acc p => qadd acc (qmul p.1 p.2)) 0

/-- `can_achieve(dose, med_name)`: the greedy combination reconstructs the
dose exactly after rounding to 2 decimals. -/
def can_achieve (dose : ℚ) (med_name : String) : Bool :=
  round2 (comboTotal (get_pill_combination dose med_name)) = dose

/-- `freq_map = {"once": 1, "bid": 2, "tid": 3}`. -/
def freq_map (frequency : String) : Option ℕ :=
  if frequency = "once" then some 1
  else if frequency = "bid" then some 2
  else if frequency = "tid" then some 3
  else none

/-- A dose split: administration-time label mapped to a pill combination,
in `["AM", "PM", "HS"]` order. -/
abbrev DoseSplit := List (String × List (ℚ × ℚ))

/-- `assign_split_doses(dose_mg, med_name, frequency)`; `none` models the
Python `KeyError` on a frequency outside `freq_map`. -/
def assign_split_doses (dose_mg : ℚ) (med_name frequency : String) :
    Option DoseSplit :=
  match freq_map frequency with
  | none => none
  | some parts =>
      let doses := even_split dose_mg parts
      let times := ["AM", "PM", "HS"].take parts
      some (times.zip (doses.map (fun d => get_pill_combination d med_name)))

/-- `split_dose(dose_mg, med_name, frequency)` from `taper_gen.py`. -/
def split_dose (dose_mg : ℚ) (med_name frequency : String) :
    Option (DoseSplit × String) :=
  if frequency = "auto" then
    let once_combo := get_pill_combination dose_mg med_name
    if dose_mg = round2 (comboTotal once_combo) then
      (assign_split_doses dose_mg med_name "once").map (·, "once")
    else if (even_split dose_mg 2).all (fun d => can_achieve d med_name) then
      (assign_split_doses dose_mg med_name "bid").map (·, "bid")
    else if (even_split dose_mg 3).all (fun d => can_achieve d med_name) then
      (assign_split_doses dose_mg med_name "tid").map (·, "tid")
    else
      (assign_split_doses dose_mg med_name "tid").map (·, "tid")
  else
    (assign_split_doses dose_mg med_name frequency).map (·, frequency)

/-- The `speed_options` ladder inside `generate_percent_taper_schedule`. -/
structure SpeedOption where
  percent : ℚ
  interval_days : ℤ
  label : String
deriving DecidableEq

/-- The five-entry escalation ladder, gentlest first (percent 2.5, 5, 10,
15, 20). -/
def speed_options : List SpeedOption :=
  [⟨mkRat 5 2, 28, "slow"⟩, ⟨5, 21, "standard"⟩, ⟨10, 14, "fast"⟩,
   ⟨15, 14, "very fast"⟩, ⟨20, 7, "ultra fast"⟩]

/-- `max_steps = 50`. -/
def max_steps : ℕ := 50

/-- `datetime.date.max.toordinal()` (9999-12-31). -/
def maxDateOrdinal : ℤ := 3652059

/-- `date(2100, 12, 31).toordinal()`: an ordinal `d` has `d.year > 2100`
iff `d > year2100Ordinal`. -/
def year2100Ordinal : ℤ := 767009

/-- One row of the emitted schedule (a Python dict; regular steps have no
`note`/`frequency_days` key, modelled as `none`). -/
structure Step where
  dose_mg : ℚ
  duration_days : ℤ
  frequency_days : Option ℤ := none
  start_day : ℤ
  end_day : ℤ
  start_date : ℤ
  end_date : ℤ
  week_label : String
  dosing_frequency : String
  dosing_schedule : DoseSplit
  note : Option String := none
deriving DecidableEq

/-- The local variables of one trajectory attempt. -/
structure LoopState where
  schedule : List Step
  current_dose : ℚ
  current_day : ℤ
  current_date : ℤ
  week_number : ℤ
  step_count : ℕ
deriving DecidableEq

/-- Result of one `while current_dose > min_dose_mg` attempt: normal loop
exit, the caught `"... more than 50 steps"` `ValueError` (the Python locals
survive, so the state is kept), or a propagating error. -/
inductive AttemptOutcome where
  | done (st : LoopState)
  | tooMany (st : LoopState)
  | err (msg : String)
deriving DecidableEq

/-- The dose-update of lines 150-152 in isolation: percentage reduction,
floor at `min_dose`, then rounding to the nearest multiple of `round_to`
(ties to even) and to two decimals. -/
def trajStep (percent min_dose round_to : ℚ) (d : ℚ) : ℚ :=
  round2 (qmul round_to
    (pyRound (qdiv (max (qsub d (qmul d (qdiv percent 100))) min_dose) round_to) : ℚ))

/-- The list of `dose_mg` values the attempt loop emits from dose `d` with
`fuel` iterations remaining. -/
def trajDoses (percent min_dose round_to : ℚ) : ℕ → ℚ → List ℚ
  | 0, _ => []
  | fuel + 1, d =>
      if d > min_dose then
        round2 d :: trajDoses percent min_dose round_to fuel (trajStep percent min_dose round_to d)
      else []

/-- The dose the attempt loop holds after up to `fuel` iterations from
dose `d` (stops iterating once the dose is at or below `min_dose`). -/
def iterDose (percent min_dose round_to : ℚ) : ℕ → ℚ → ℚ
  | 0, d => d
  | fuel + 1, d =>
      if d > min_dose then
        iterDose percent min_dose round_to fuel (trajStep percent min_dose round_to d)
      else d

/-- The step record emitted by one iteration of the attempt loop (lines
135-149); its `dose_mg` is `round(current_dose, 2)`. -/
def mkLoopStep (interval : ℤ) (st : LoopState) (ds : DoseSplit) (fr : String) : Step :=
  { dose_mg := round2 st.current_dose
    duration_days := interval
    start_day := st.current_day
    end_day := st.current_day + interval - 1
    start_date := st.current_date
    end_date := st.current_date + (interval - 1)
    week_label := "Weeks " ++ toString st.week_number ++ "–" ++
      toString (st.week_number + Int.fdiv interval 7 - 1)
    dosing_frequency := fr
    dosing_schedule := ds }

/-- The loop-state update of one iteration (lines 149-162): append the
step, advance the dose by `trajStep` (the literal lines 150-152), advance
day, date and week number, and record the incremented `step_count`. -/
def advanceState (percent : ℚ) (interval : ℤ) (min_dose round_to : ℚ)
    (st : LoopState) (ds : DoseSplit) (fr : String) : LoopState :=
  { schedule := st.schedule ++ [mkLoopStep interval st ds fr]
    current_dose := trajStep percent min_dose round_to st.current_dose
    current_day := st.current_day + interval
    current_date := st.current_date + interval
    week_number := st.week_number + Int.fdiv interval 7
    step_count := st.step_count + 1 }

/-- The inner `while current_dose > min_dose_mg` loop of
`generate_percent_taper_schedule` (lines 127-162), fuel-counted: with
`fuel = max_steps` the `fuel = 0` branch is exactly the iteration in which
`step_count > max_steps` raises (the Python locals survive the raise, so
the state is kept for the handler). -/
def attemptLoop (percent : ℚ) (interval : ℤ) (min_dose round_to : ℚ)
    (freq : String) : ℕ → LoopState → AttemptOutcome
  | 0, st =>
    if st.current_dose > min_dose then .tooMany { st with step_count := st.step_count + 1 }
    else .done st
  | fuel' + 1, st =>
    if st.current_dose > min_dose then
      if interval - 1 > maxDateOrdinal - st.current_date then
        .err "Taper schedule end date exceeds supported range."
      else
        match split_dose (round2 st.current_dose) "diazepam" freq with
        | none => .err "KeyError"
        | some (dosing_schedule, actual_freq) =>
          if interval > maxDateOrdinal - st.current_date then
            .err "Taper schedule date increment exceeds supported range."
          else if st.current_date + interval > year2100Ordinal then
            .err "Taper schedule exceeds year 2100."
          else
            attemptLoop percent interval min_dose round_to freq fuel'
              (advanceState percent interval min_dose round_to st dosing_schedule actual_freq)
    else .done st

/-- The variables that survive the ladder loop and feed the final-step
section (lines 176-217): Python leaks the last attempt's locals. -/
structure LadderResult where
  schedule : List Step
  current_dose : ℚ
  current_day : ℤ
  current_date : ℤ
  week_number : ℤ
  interval_days : ℤ
  warning : Option String
deriving DecidableEq

/-- Warning set when all ladder speeds fail (line 175). -/
def couldNotFitWarning : String :=
  "Could not fit taper within 50 steps, used fastest schedule ('ultra fast')."

/-- Warning set on escalation (line 169); note the source formats
`speed_options[speed_idx-1]` after incrementing `speed_idx`, so `lbl` is
the label of the speed that just failed, not of the new speed. -/
def escalationWarning (lbl : String) : String :=
  "Taper speed was automatically increased to '" ++ lbl ++
  "' to keep the schedule realistic (≤50 steps)."

/-- The `while speed_idx < len(speed_options)` ladder (lines 117-175):
attempt the current speed; on the caught too-many-steps error move to the
next speed (recording the escalation warning), or if none remains fall
through to the `else:` branch, which keeps the last attempt's partial
state and overwrites the warning. -/
def ladderLoop (dose0 min_dose round_to : ℚ) (start_date : ℤ) (freq : String) :
    SpeedOption → List SpeedOption → Option String → Except String LadderResult
  | so, rest, warning =>
    match attemptLoop so.percent so.interval_days min_dose round_to freq max_steps
        ⟨[], dose0, 1, start_date, 1, 0⟩ with
    | .done st => .ok ⟨st.schedule, st.current_dose, st.current_day,
        st.current_date, st.week_number, so.interval_days, warning⟩
    | .err m => .error m
    | .tooMany st =>
      match rest with
      | [] => .ok ⟨st.schedule, st.current_dose, st.current_day,
          st.current_date, st.week_number, so.interval_days, some couldNotFitWarning⟩
      | so' :: rest' =>
          ladderLoop dose0 min_dose round_to start_date freq so' rest'
            (some (escalationWarning so.label))

/-- The final plateau step at `min_dose_mg` appended after the ladder loop
(lines 176-191 of `taper_gen.py`). -/
def finalStepOf (min_dose_mg : ℚ) (lr : LadderResult) (final_schedule : DoseSplit)
    (actual_freq : String) : Step :=
  { dose_mg := min_dose_mg
    duration_days := lr.interval_days
    start_day := lr.current_day
    end_day := lr.current_day + lr.interval_days - 1
    start_date := lr.current_date
    end_date := lr.current_date + (lr.interval_days - 1)
    week_label := "Weeks " ++ toString lr.week_number ++ "–" ++
      toString (lr.week_number + Int.fdiv lr.interval_days 7 - 1)
    dosing_frequency := actual_freq
    dosing_schedule := final_schedule
    note := some "final daily dose" }

/-- The optional final-hold step (lines 197-215 of `taper_gen.py`), built
from the post-plateau `current_day`/`current_date`/`week_number`. -/
def holdStepOf (min_dose_mg : ℚ) (lr : LadderResult) (final_schedule : DoseSplit)
    (actual_freq : String) (hold_days hold_freq : ℤ) : Step :=
  { dose_mg := min_dose_mg
    duration_days := hold_days
    frequency_days := some hold_freq
    start_day := lr.current_day + lr.interval_days
    end_day := lr.current_day + lr.interval_days + hold_days - 1
    start_date := lr.current_date + lr.interval_days
    end_date := lr.current_date + lr.interval_days + (hold_days - 1)
    week_label := "Weeks " ++
      toString (lr.week_number + Int.fdiv lr.interval_days 7) ++ "–" ++
      toString (lr.week_number + Int.fdiv lr.interval_days 7 + Int.fdiv hold_days 7)
    dosing_frequency := actual_freq
    dosing_schedule := final_schedule
    note := some ("final hold every " ++ toString hold_freq ++ " days") }

/-- `generate_percent_taper_schedule` (lines 94-217).  Requested speed is
looked up in the ladder, defaulting to `speed_options[1]` ("standard");
after the ladder loop the final plateau step at `min_dose_mg` is appended,
then the optional final-hold step (appended when both hold arguments are
Python-truthy), and `(schedule, total_days, warning)` is returned.  The
unconditional `current_date += timedelta(...)` at line 195 can overflow
`date.max` (Python `OverflowError`); modelled as an error. -/
def generate_percent_taper_schedule (diazepam_dose_mg : ℚ) (taper_speed : String)
    (min_dose_mg round_to : ℚ) (final_hold_days final_hold_frequency_days : Option ℤ)
    (start_date : ℤ) (dosing_frequency : String) :
    Except String (List Step × ℤ × Option String) :=
  let idx := (speed_options.findIdx? (fun s => s.label == taper_speed)).getD 1
  match speed_options.drop idx with
  | [] => .error "empty speed ladder"  -- unreachable: idx < speed_options.length
  | so :: rest =>
    match ladderLoop diazepam_dose_mg min_dose_mg round_to start_date
        dosing_frequency so rest none with
    | .error m => .error m
    | .ok lr =>
      match split_dose min_dose_mg "diazepam" dosing_frequency with
      | none => .error "KeyError"
      | some (final_schedule, actual_freq) =>
        if lr.interval_days - 1 > maxDateOrdinal - lr.current_date then
          .error "Final taper step would exceed supported date range."
        else
          let schedule1 := lr.schedule ++
            [finalStepOf min_dose_mg lr final_schedule actual_freq]
          if lr.current_date + lr.interval_days > maxDateOrdinal then
            .error "OverflowError: date value out of range"
          else
            match final_hold_days, final_hold_frequency_days with
            | some hold_days, some hold_freq =>
              if hold_days ≠ 0 ∧ hold_freq ≠ 0 then
                if hold_days - 1 > maxDateOrdinal - (lr.current_date + lr.interval_days) then
                  .error "Final hold period would exceed supported date range."
                else
                  let schedule2 := schedule1 ++
                    [holdStepOf min_dose_mg lr final_schedule actual_freq hold_days hold_freq]
                  .ok (schedule2, ((schedule2.getLast?).map Step.end_day).getD 0, lr.warning)
              else
                .ok (schedule1, ((schedule1.getLast?).map Step.end_day).getD 0, lr.warning)
            | _, _ =>
                .ok (schedule1, ((schedule1.getLast?).map Step.end_day).getD 0, lr.warning)

/-- `create_bzd_taper_plan` (lines 220-243): lower-case the medication,
convert to diazepam-equivalent unless it already is diazepam, then call
the generator (with its default `min_dose_mg=0.5`). -/
def create_bzd_taper_plan (starting_medication : String) (starting_dose_mg : ℚ)
    (taper_speed : String) (round_to : ℚ)
    (final_hold_days final_hold_frequency_days : Option ℤ)
    (start_date : ℤ) (dosing_frequency : String) :
    Except String (List Step × ℤ × Option String) :=
  let med_name := strLower starting_medication
  match (if med_name ≠ "diazepam"
         then convert_to_diazepam starting_dose_mg med_name
         else .ok starting_dose_mg) with
  | .error m => .error m
  | .ok converted_dose =>
      generate_percent_taper_schedule converted_dose taper_speed (mkRat 1 2) round_to
        final_hold_days final_hold_frequency_days start_date dosing_frequency

/-- The surviving loop state of an outcome (`err` carries none). -/
def AttemptOutcome.stateOf : AttemptOutcome → Option LoopState
  | .done st => some st
  | .tooMany st => some st
  | .err _ => none

/-- Python truthiness of the two final-hold arguments (`x and y`). -/
def holdActive (h1 h2 : Option ℤ) : Prop :=
  ∃ a b, h1 = some a ∧ h2 = some b ∧ a ≠ 0 ∧ b ≠ 0

instance (h1 h2 : Option ℤ) : Decidable (holdActive h1 h2) := by
  unfold holdActive
  rcases h1 with _ | a <;> rcases h2 with _ | b
  · exact .isFalse (by simp)
  · exact .isFalse (by simp)
  · exact .isFalse (by simp)
  · by_cases ha : a = 0
    · exact .isFalse (by simp [ha])
    · by_cases hb : b = 0
      · exact .isFalse (by simp [hb])
      · exact .isTrue ⟨a, b, rfl, rfl, ha, hb⟩

instance {ε α : Type} [DecidableEq ε] [DecidableEq α] : DecidableEq (Except ε α) := fun a b =>
  match a, b with
  | .error x, .error y =>
      if h : x = y then .isTrue (by rw [h]) else .isFalse (by simp [h])
  | .error _, .ok _ => .isFalse (by simp)
  | .ok _, .error _ => .isFalse (by simp)
  | .ok x, .ok y =>
      if h : x = y then .isTrue (by rw [h]) else .isFalse (by simp [h])

/-- The `"auto"` frequency resolution as the spec words it (for C8): "once"
if the whole dose's combination reconstructs it exactly after 2-decimal
rounding; otherwise "bid" only if every evenly-split sub-dose individually
satisfies `can_achieve`; otherwise "tid" (the all-or-nothing accepted "tid"
and the forced best-effort fallback coincide in value). -/
def autoFrequencySpec (d : ℚ) (med : String) : String :=
  if can_achieve d med then "once"
  else if (even_split d 2).all (fun x => can_achieve x med) then "bid"
  else "tid"

/-! ## Helper lemmas about the trajectory functions and the attempt loop -/

theorem split_dose_auto_isSome (d : ℚ) (med : String) :
    (split_dose d med "auto").isSome := by
  rw [split_dose, if_pos rfl]
  split_ifs <;> simp [assign_split_doses, freq_map] <;> (try split_ifs) <;> rfl

theorem iterDose_stopped (p md rt : ℚ) (b : ℕ) (d : ℚ) (h : ¬ d > md) :
    iterDose p md rt b d = d := by
  cases b <;> simp [iterDose, h]

theorem iterDose_add (p md rt : ℚ) (a b : ℕ) (d : ℚ) :
    iterDose p md rt (a + b) d = iterDose p md rt b (iterDose p md rt a d) := by
  induction a generalizing d with
  | zero => simp [iterDose]
  | succ a IH =>
      rw [Nat.succ_add, iterDose, iterDose]
      by_cases h : d > md
      · rw [if_pos h, if_pos h, IH]
      · rw [if_neg h, if_neg h, iterDose_stopped p md rt b d h]

theorem iterDose_fix (p md rt : ℚ) (d : ℚ) (hfix : trajStep p md rt d = d) :
    ∀ n, iterDose p md rt n d = d := by
  intro n
  induction n with
  | zero => rfl
  | succ n IH =>
      rw [iterDose]
      by_cases h : d > md
      · rw [if_pos h, hfix, IH]
      · rw [if_neg h]

theorem trajDoses_stopped (p md rt : ℚ) (fuel : ℕ) (d : ℚ) (h : ¬ d > md) :
    trajDoses p md rt fuel d = [] := by
  cases fuel <;> simp [trajDoses, h]

/-- The main correspondence: with enough calendar room and a frequency the
pill solver accepts, the attempt loop runs the pure dose trajectory,
emitting one step per trajectory entry, and exits normally exactly when
`iterDose` has reached `min_dose`. -/
theorem attemptLoop_spec (p : ℚ) (i : ℤ) (md rt : ℚ) (freq : String)
    (hsplit : ∀ d : ℚ, (split_dose d "diazepam" freq).isSome) (hi : 0 < i) :
    ∀ (fuel : ℕ) (st : LoopState),
      st.current_date + (fuel : ℤ) * i ≤ year2100Ordinal →
      ∃ Δ : List Step,
        Δ.map Step.dose_mg = trajDoses p md rt fuel st.current_dose ∧
        Δ.map Step.duration_days = List.replicate Δ.length i ∧
        attemptLoop p i md rt freq fuel st =
          (if iterDose p md rt fuel st.current_dose ≤ md then
            AttemptOutcome.done
              ⟨st.schedule ++ Δ, iterDose p md rt fuel st.current_dose,
               st.current_day + (Δ.length : ℤ) * i, st.current_date + (Δ.length : ℤ) * i,
               st.week_number + (Δ.length : ℤ) * Int.fdiv i 7, st.step_count + Δ.length⟩
          else
            AttemptOutcome.tooMany
              ⟨st.schedule ++ Δ, iterDose p md rt fuel st.current_dose,
               st.current_day + (Δ.length : ℤ) * i, st.current_date + (Δ.length : ℤ) * i,
               st.week_number + (Δ.length : ℤ) * Int.fdiv i 7, st.step_count + Δ.length + 1⟩) := by
  intro fuel
  induction fuel with
  | zero =>
      intro st _
      refine ⟨[], by simp [trajDoses], by simp, ?_⟩
      rw [attemptLoop]
      simp only [iterDose, List.length_nil, Nat.cast_zero, zero_mul, add_zero,
        List.append_nil, Nat.add_zero]
      by_cases h : st.current_dose > md
      · rw [if_pos h, if_neg (not_le.mpr h)]
      · rw [if_neg h, if_pos (not_lt.mp h)]
  | succ fuel IH =>
      intro st hdate
      by_cases h : st.current_dose > md
      · have hy : year2100Ordinal < maxDateOrdinal := by decide
        have hfi : (0:ℤ) ≤ (fuel : ℤ) * i := by positivity
        have hd1 : st.current_date + i ≤ year2100Ordinal := by
          have hrw : st.current_date + ((fuel + 1 : ℕ) : ℤ) * i
              = st.current_date + i + (fuel : ℤ) * i := by push_cast; ring
          rw [hrw] at hdate
          linarith
        have c1 : ¬ (i - 1 > maxDateOrdinal - st.current_date) := by
          simp only [not_lt]
          linarith
        have c2 : ¬ (i > maxDateOrdinal - st.current_date) := by
          simp only [not_lt]
          linarith
        have c3 : ¬ (st.current_date + i > year2100Ordinal) := by
          simp only [not_lt]
          linarith
        obtain ⟨⟨ds, fr⟩, hds⟩ := Option.isSome_iff_exists.mp (hsplit (round2 st.current_dose))
        have hdate' : (advanceState p i md rt st ds fr).current_date + (fuel : ℤ) * i
            ≤ year2100Ordinal := by
          show st.current_date + i + (fuel : ℤ) * i ≤ year2100Ordinal
          have hrw : st.current_date + ((fuel + 1 : ℕ) : ℤ) * i
              = st.current_date + i + (fuel : ℤ) * i := by push_cast; ring
          rw [hrw] at hdate
          exact hdate
        obtain ⟨Δ', h1', h2', h3'⟩ := IH (advanceState p i md rt st ds fr) hdate'
        refine ⟨mkLoopStep i st ds fr :: Δ', ?_, ?_, ?_⟩
        · rw [trajDoses]
          rw [if_pos h]
          simpa [mkLoopStep, advanceState] using h1'
        · simpa [mkLoopStep, List.replicate_succ] using h2'
        · rw [attemptLoop, if_pos h, if_neg c1, hds]
          have hiter : iterDose p md rt (fuel + 1) st.current_dose
              = iterDose p md rt fuel (trajStep p md rt st.current_dose) := by
            rw [iterDose, if_pos h]
          dsimp only
          rw [if_neg c2, if_neg c3, h3', hiter]
          have hcd : (advanceState p i md rt st ds fr).current_dose
              = trajStep p md rt st.current_dose := rfl
          rw [hcd]
          by_cases hc : iterDose p md rt fuel (trajStep p md rt st.current_dose) ≤ md
          · rw [if_pos hc, if_pos hc]
            simp only [AttemptOutcome.done.injEq, advanceState, LoopState.mk.injEq,
              List.length_cons]
            and_intros <;>
              first
                | rfl
                | (push_cast; ring1)
                | omega
                | simp [List.append_assoc, List.singleton_append]
          · rw [if_neg hc, if_neg hc]
            simp only [AttemptOutcome.tooMany.injEq, advanceState, LoopState.mk.injEq,
              List.length_cons]
            and_intros <;>
              first
                | rfl
                | (push_cast; ring1)
                | omega
                | simp [List.append_assoc, List.singleton_append]
      · refine ⟨[], by simp [trajDoses_stopped p md rt _ _ h], by simp, ?_⟩
        rw [attemptLoop, if_neg h, iterDose_stopped p md rt _ _ h,
          if_pos (not_lt.mp h)]
        simp

/-- Whenever the attempt loop finishes without a propagating error, the
emitted step doses are exactly the pure dose trajectory appended to the
incoming schedule (no hypotheses needed). -/
theorem attemptLoop_doses (p : ℚ) (i : ℤ) (md rt : ℚ) (freq : String) :
    ∀ (fuel : ℕ) (st st' : LoopState),
      (attemptLoop p i md rt freq fuel st).stateOf = some st' →
      st'.schedule.map Step.dose_mg
        = st.schedule.map Step.dose_mg ++ trajDoses p md rt fuel st.current_dose := by
  intro fuel
  induction fuel with
  | zero =>
      intro st st' h
      rw [attemptLoop] at h
      by_cases hd : st.current_dose > md
      · rw [if_pos hd] at h
        simp only [AttemptOutcome.stateOf, Option.some.injEq] at h
        subst h
        simp [trajDoses]
      · rw [if_neg hd] at h
        simp only [AttemptOutcome.stateOf, Option.some.injEq] at h
        subst h
        simp [trajDoses]
  | succ fuel IH =>
      intro st st' h
      rw [attemptLoop] at h
      by_cases hd : st.current_dose > md
      · rw [if_pos hd] at h
        by_cases hc1 : i - 1 > maxDateOrdinal - st.current_date
        · rw [if_pos hc1] at h
          simp [AttemptOutcome.stateOf] at h
        · rw [if_neg hc1] at h
          rcases hsd : split_dose (round2 st.current_dose) "diazepam" freq with _ | ⟨ds, fr⟩
          · rw [hsd] at h
            simp [AttemptOutcome.stateOf] at h
          · rw [hsd] at h
            dsimp only at h
            by_cases hc2 : i > maxDateOrdinal - st.current_date
            · rw [if_pos hc2] at h
              simp [AttemptOutcome.stateOf] at h
            · rw [if_neg hc2] at h
              by_cases hc3 : st.current_date + i > year2100Ordinal
              · rw [if_pos hc3] at h
                simp [AttemptOutcome.stateOf] at h
              · rw [if_neg hc3] at h
                rw [IH _ _ h]
                rw [trajDoses, if_pos hd]
                simp [advanceState, mkLoopStep]
      · rw [if_neg hd] at h
        simp only [AttemptOutcome.stateOf, Option.some.injEq] at h
        subst h
        simp [trajDoses_stopped p md rt _ _ hd]

/-- Every `ok` result of the ladder loop carries the dose trajectory of one
of the attempted speeds (no hypotheses needed). -/
theorem ladderLoop_ok_doses (dose0 md rt : ℚ) (sdate : ℤ) (freq : String) :
    ∀ (rest : List SpeedOption) (so : SpeedOption) (w : Option String)
      (lr : LadderResult),
      ladderLoop dose0 md rt sdate freq so rest w = .ok lr →
      ∃ so', (so' = so ∨ so' ∈ rest) ∧
        lr.schedule.map Step.dose_mg = trajDoses so'.percent md rt max_steps dose0 := by
  intro rest
  induction rest with
  | nil =>
      intro so w lr h
      rw [ladderLoop] at h
      rcases hA : attemptLoop so.percent so.interval_days md rt freq max_steps
          ⟨[], dose0, 1, sdate, 1, 0⟩ with st | st | m <;> rw [hA] at h
      · simp only [Except.ok.injEq] at h
        refine ⟨so, Or.inl rfl, ?_⟩
        have hdz := attemptLoop_doses so.percent so.interval_days md rt freq max_steps
          ⟨[], dose0, 1, sdate, 1, 0⟩ st (by rw [hA]; rfl)
        subst h
        simpa using hdz
      · simp only [Except.ok.injEq] at h
        refine ⟨so, Or.inl rfl, ?_⟩
        have hdz := attemptLoop_doses so.percent so.interval_days md rt freq max_steps
          ⟨[], dose0, 1, sdate, 1, 0⟩ st (by rw [hA]; rfl)
        subst h
        simpa using hdz
      · exact absurd h (by simp)
  | cons r rest' IH =>
      intro so w lr h
      rw [ladderLoop] at h
      rcases hA : attemptLoop so.percent so.interval_days md rt freq max_steps
          ⟨[], dose0, 1, sdate, 1, 0⟩ with st | st | m <;> rw [hA] at h
      · simp only [Except.ok.injEq] at h
        refine ⟨so, Or.inl rfl, ?_⟩
        have hdz := attemptLoop_doses so.percent so.interval_days md rt freq max_steps
          ⟨[], dose0, 1, sdate, 1, 0⟩ st (by rw [hA]; rfl)
        subst h
        simpa using hdz
      · obtain ⟨so', hmem, hdz⟩ := IH r (some (escalationWarning so.label)) lr h
        refine ⟨so', .inr ?_, hdz⟩
        rcases hmem with rfl | hm
        · exact List.mem_cons_self _ _
        · exact List.mem_cons_of_mem _ hm
      · exact absurd h (by simp)

/-! ## Arithmetic facts about the rounding primitives and the trajectory -/

theorem mkRat_one_two : mkRat 1 2 = (1 : ℚ)/2 := by
  rw [Rat.mkRat_eq_div]
  norm_num

theorem pyRound_le (x : ℚ) : (pyRound x : ℚ) ≤ x + 1/2 := by
  have h1 : (⌊x⌋ : ℚ) ≤ x := Int.floor_le x
  rw [pyRound, ratFloor_eq, qsub_eq, mkRat_one_two]
  split_ifs <;> push_cast <;> linarith

theorem le_pyRound (x : ℚ) : x - 1/2 ≤ (pyRound x : ℚ) := by
  have h1 : (⌊x⌋ : ℚ) ≤ x := Int.floor_le x
  have h2 : x < (⌊x⌋ : ℚ) + 1 := Int.lt_floor_add_one x
  rw [pyRound, ratFloor_eq, qsub_eq, mkRat_one_two]
  split_ifs with hlt hgt heven <;> push_cast <;> linarith

theorem pyRound_ge_floor (x : ℚ) : (⌊x⌋ : ℚ) ≤ (pyRound x : ℚ) := by
  rw [pyRound, ratFloor_eq]
  split_ifs <;> push_cast <;> linarith

theorem pyRound_intCast (n : ℤ) : pyRound (n : ℚ) = n := by
  rw [pyRound, ratFloor_eq, Int.floor_intCast, qsub_eq, mkRat_one_two]
  rw [if_pos (by norm_num)]

theorem round2_eq (x : ℚ) : round2 x = (pyRound (x * 100) : ℚ) / 100 := by
  rw [round2, qdiv_eq, qmul_eq]

/-- `round(x, 2)` is the identity on half-integers. -/
theorem round2_half (k : ℤ) : round2 ((k : ℚ)/2) = (k : ℚ)/2 := by
  have h : ((k : ℚ)/2) * 100 = ((50 * k : ℤ) : ℚ) := by push_cast; ring
  rw [round2_eq, h, pyRound_intCast]
  push_cast
  ring

/-- `round(x, 2)` moves its argument by at most `0.005`. -/
theorem round2_abs_le (x : ℚ) : |round2 x - x| ≤ 1/200 := by
  have h1 := pyRound_le (x * 100)
  have h2 := le_pyRound (x * 100)
  rw [round2_eq, abs_le]
  constructor <;> [linarith; linarith]

/-- A dose strictly above `0.5` stays at or above `0.5` after 2-decimal
rounding. -/
theorem round2_ge_half (d : ℚ) (hd : d > 1/2) : round2 d ≥ 1/2 := by
  have h1 : (50 : ℚ) ≤ (⌊d * 100⌋ : ℚ) := by
    have : ((50 : ℤ) : ℚ) ≤ (⌊d * 100⌋ : ℚ) := by
      exact_mod_cast Int.le_floor.mpr (by push_cast; linarith)
    exact_mod_cast this
  have h2 := pyRound_ge_floor (d * 100)
  rw [round2_eq]
  linarith

/-- With the default 0.5 mg grid the updated dose is a half-integer. -/
theorem trajStep_half (p md d : ℚ) :
    ∃ k : ℤ, trajStep p md (mkRat 1 2) d = (k : ℚ)/2 := by
  refine ⟨pyRound (qdiv (max (qsub d (qmul d (qdiv p 100))) md) (mkRat 1 2)), ?_⟩
  rw [trajStep]
  have h : qmul (mkRat 1 2)
      (pyRound (qdiv (max (qsub d (qmul d (qdiv p 100))) md) (mkRat 1 2)) : ℚ)
      = ((pyRound (qdiv (max (qsub d (qmul d (qdiv p 100))) md) (mkRat 1 2)) : ℤ) : ℚ)/2 := by
    rw [qmul_eq, mkRat_one_two]
    ring
  rw [h, round2_half]

/-- On the half-integer grid above the floor, the dose update of lines
150-152 never increases the dose (for the default 0.5 mg minimum and
grid and a non-negative percentage). -/
theorem trajStep_le (p : ℚ) (hp : 0 ≤ p) (k : ℤ) (hgt : (k : ℚ)/2 > 1/2) :
    trajStep p (mkRat 1 2) (mkRat 1 2) ((k : ℚ)/2) ≤ (k : ℚ)/2 := by
  set d : ℚ := (k : ℚ)/2 with hd
  have hdpos : 0 < d := lt_trans (by norm_num) hgt
  have hred : 0 ≤ d * (p/100) := by positivity
  have hm : max (d - d * (p/100)) ((1:ℚ)/2) ≤ d := by
    apply max_le
    · linarith
    · linarith
  obtain ⟨k', hk'⟩ := trajStep_half p (mkRat 1 2) d
  have hqd : qdiv (max (qsub d (qmul d (qdiv p 100))) (mkRat 1 2)) (mkRat 1 2)
      = 2 * max (d - d * (p/100)) ((1:ℚ)/2) := by
    rw [qdiv_eq, qsub_eq, qmul_eq, qdiv_eq, mkRat_one_two]
    field_simp
    ring
  have hkval : trajStep p (mkRat 1 2) (mkRat 1 2) d
      = (pyRound (2 * max (d - d * (p/100)) ((1:ℚ)/2)) : ℚ)/2 := by
    rw [trajStep]
    have h : qmul (mkRat 1 2)
        (pyRound (qdiv (max (qsub d (qmul d (qdiv p 100))) (mkRat 1 2)) (mkRat 1 2)) : ℚ)
        = ((pyRound (qdiv (max (qsub d (qmul d (qdiv p 100))) (mkRat 1 2)) (mkRat 1 2)) : ℤ) : ℚ)/2 := by
      rw [qmul_eq, mkRat_one_two]
      ring
    rw [h, round2_half, hqd]
  rw [hkval]
  have hb := pyRound_le (2 * max (d - d * (p/100)) ((1:ℚ)/2))
  have hle : (pyRound (2 * max (d - d * (p/100)) ((1:ℚ)/2)) : ℚ) ≤ (k : ℚ) + 1/2 := by
    have : 2 * max (d - d * (p/100)) ((1:ℚ)/2) ≤ (k : ℚ) := by
      rw [hd] at hm ⊢
      linarith
    linarith
  have hint : pyRound (2 * max (d - d * (p/100)) ((1:ℚ)/2)) ≤ k := by
    by_contra hcon
    push_neg at hcon
    have : (k : ℚ) + 1 ≤ (pyRound (2 * max (d - d * (p/100)) ((1:ℚ)/2)) : ℚ) := by
      exact_mod_cast Int.add_one_le_of_lt hcon
    linarith
  have : (pyRound (2 * max (d - d * (p/100)) ((1:ℚ)/2)) : ℚ) ≤ (k : ℚ) := by
    exact_mod_cast hint
  linarith

/-- The head of a non-empty trajectory is the 2-decimal rounding of the
start dose, and the start dose is above the floor. -/
theorem trajDoses_head (p md rt : ℚ) (fuel : ℕ) (d x : ℚ)
    (h : (trajDoses p md rt fuel d).head? = some x) : x = round2 d ∧ d > md := by
  cases fuel with
  | zero => simp [trajDoses] at h
  | succ fuel =>
      rw [trajDoses] at h
      by_cases hd : d > md
      · rw [if_pos hd] at h
        simp at h
        exact ⟨h.symm, hd⟩
      · rw [if_neg hd] at h
        simp at h

/-- Every trajectory entry is the 2-decimal rounding of a dose above the
floor. -/
theorem trajDoses_mem (p md rt : ℚ) :
    ∀ (fuel : ℕ) (d x : ℚ), x ∈ trajDoses p md rt fuel d →
      ∃ d₀, x = round2 d₀ ∧ d₀ > md := by
  intro fuel
  induction fuel with
  | zero => intro d x h; simp [trajDoses] at h
  | succ fuel IH =>
      intro d x h
      rw [trajDoses] at h
      by_cases hd : d > md
      · rw [if_pos hd] at h
        rcases List.mem_cons.mp h with rfl | h2
        · exact ⟨d, rfl, hd⟩
        · exact IH _ _ h2
      · rw [if_neg hd] at h
        simp at h

/-- Starting on the half-integer grid, the emitted doses are non-increasing
(default floor and grid, non-negative percentage). -/
theorem trajDoses_chain (p : ℚ) (hp : 0 ≤ p) :
    ∀ (fuel : ℕ) (k : ℤ),
      List.Chain' (· ≥ ·) (trajDoses p (mkRat 1 2) (mkRat 1 2) fuel ((k : ℚ)/2)) := by
  intro fuel
  induction fuel with
  | zero => intro k; simp [trajDoses]
  | succ fuel IH =>
      intro k
      rw [trajDoses]
      by_cases hd : (k : ℚ)/2 > mkRat 1 2
      · rw [if_pos hd]
        obtain ⟨k', hk'⟩ := trajStep_half p (mkRat 1 2) ((k : ℚ)/2)
        apply List.chain'_cons'.mpr
        refine ⟨?_, by rw [hk']; exact IH k'⟩
        intro y hy
        have hhd := trajDoses_head p (mkRat 1 2) (mkRat 1 2) fuel _ y hy
        rw [hk', round2_half] at hhd
        rw [round2_half, hhd.1, ← hk']
        rw [mkRat_one_two] at hd
        exact trajStep_le p hp k hd
      · rw [if_neg hd]
        exact List.chain'_nil

/-- The tail of any trajectory is non-increasing (the head may sit off the
grid, so only the tail is guaranteed). -/
theorem trajDoses_tail_chain (p : ℚ) (hp : 0 ≤ p) (fuel : ℕ) (d : ℚ) :
    List.Chain' (· ≥ ·) (trajDoses p (mkRat 1 2) (mkRat 1 2) fuel d).tail := by
  cases fuel with
  | zero => simp [trajDoses]
  | succ fuel =>
      rw [trajDoses]
      by_cases hd : d > mkRat 1 2
      · rw [if_pos hd]
        obtain ⟨k', hk'⟩ := trajStep_half p (mkRat 1 2) d
        simp only [List.tail_cons]
        rw [hk']
        exact trajDoses_chain p hp fuel k'
      · rw [if_neg hd]
        simp

/-! ## Composition helpers for the ladder and the generator -/

/-- A dose at or below the floor exits the loop immediately. -/
theorem attemptLoop_done_of_le (p : ℚ) (i : ℤ) (md rt : ℚ) (freq : String)
    (fuel : ℕ) (st : LoopState) (h : ¬ st.current_dose > md) :
    attemptLoop p i md rt freq fuel st = .done st := by
  cases fuel <;> rw [attemptLoop] <;> rw [if_neg h]

/-- When the very first date check fails, the attempt aborts with the
propagating error. -/
theorem attemptLoop_err_first (p : ℚ) (i : ℤ) (md rt : ℚ) (freq : String)
    (fuel : ℕ) (st : LoopState) (h : st.current_dose > md)
    (hdate : i - 1 > maxDateOrdinal - st.current_date) :
    attemptLoop p i md rt freq (fuel + 1) st
      = .err "Taper schedule end date exceeds supported range." := by
  rw [attemptLoop, if_pos h, if_pos hdate]

theorem ladderLoop_done (dose0 md rt : ℚ) (sdate : ℤ) (freq : String)
    (so : SpeedOption) (rest : List SpeedOption) (w : Option String) (st : LoopState)
    (hA : attemptLoop so.percent so.interval_days md rt freq max_steps
        ⟨[], dose0, 1, sdate, 1, 0⟩ = .done st) :
    ladderLoop dose0 md rt sdate freq so rest w
      = .ok ⟨st.schedule, st.current_dose, st.current_day, st.current_date,
          st.week_number, so.interval_days, w⟩ := by
  cases rest <;> rw [ladderLoop, hA]

theorem ladderLoop_step (dose0 md rt : ℚ) (sdate : ℤ) (freq : String)
    (so so' : SpeedOption) (rest' : List SpeedOption) (w : Option String) (st : LoopState)
    (hA : attemptLoop so.percent so.interval_days md rt freq max_steps
        ⟨[], dose0, 1, sdate, 1, 0⟩ = .tooMany st) :
    ladderLoop dose0 md rt sdate freq so (so' :: rest') w
      = ladderLoop dose0 md rt sdate freq so' rest' (some (escalationWarning so.label)) := by
  rw [ladderLoop, hA]

theorem ladderLoop_exhaust (dose0 md rt : ℚ) (sdate : ℤ) (freq : String)
    (so : SpeedOption) (w : Option String) (st : LoopState)
    (hA : attemptLoop so.percent so.interval_days md rt freq max_steps
        ⟨[], dose0, 1, sdate, 1, 0⟩ = .tooMany st) :
    ladderLoop dose0 md rt sdate freq so [] w
      = .ok ⟨st.schedule, st.current_dose, st.current_day, st.current_date,
          st.week_number, so.interval_days, some couldNotFitWarning⟩ := by
  rw [ladderLoop, hA]

theorem ladderLoop_err (dose0 md rt : ℚ) (sdate : ℤ) (freq : String)
    (so : SpeedOption) (rest : List SpeedOption) (w : Option String) (m : String)
    (hA : attemptLoop so.percent so.interval_days md rt freq max_steps
        ⟨[], dose0, 1, sdate, 1, 0⟩ = .err m) :
    ladderLoop dose0 md rt sdate freq so rest w = .error m := by
  cases rest <;> rw [ladderLoop, hA]

/-- After one real iteration the dose is stuck at a fixpoint of the update:
the loop then spins until the fuel runs out. -/
theorem iterDose_step_fix (p md rt : ℚ) (d : ℚ) (n : ℕ) (hd : d > md)
    (hfix : trajStep p md rt (trajStep p md rt d) = trajStep p md rt d) :
    iterDose p md rt (n + 1) d = trajStep p md rt d := by
  rw [iterDose, if_pos hd, iterDose_fix p md rt _ hfix]

/-- One real iteration drops the dose to the floor and the loop exits. -/
theorem iterDose_step_stop (p md rt : ℚ) (d : ℚ) (n : ℕ) (hd : d > md)
    (hstop : ¬ trajStep p md rt d > md) :
    iterDose p md rt (n + 1) d = trajStep p md rt d := by
  rw [iterDose, if_pos hd, iterDose_stopped p md rt _ _ hstop]

/-- At a fixpoint of the dose update the emitted trajectory repeats the
rounded dose until the fuel runs out. -/
theorem trajDoses_fix (p md rt : ℚ) (d : ℚ) (hd : d > md)
    (hfix : trajStep p md rt d = d) :
    ∀ n, trajDoses p md rt n d = List.replicate n (round2 d) := by
  intro n
  induction n with
  | zero => simp [trajDoses]
  | succ n IH => rw [trajDoses, if_pos hd, hfix, IH, List.replicate_succ]

theorem trajDoses_step_fix (p md rt : ℚ) (d : ℚ) (n : ℕ) (hd : d > md)
    (hd2 : trajStep p md rt d > md)
    (hfix : trajStep p md rt (trajStep p md rt d) = trajStep p md rt d) :
    trajDoses p md rt (n + 1) d
      = round2 d :: List.replicate n (round2 (trajStep p md rt d)) := by
  rw [trajDoses, if_pos hd, trajDoses_fix p md rt _ hd2 hfix]

theorem trajDoses_step_stop (p md rt : ℚ) (d : ℚ) (n : ℕ) (hd : d > md)
    (hstop : ¬ trajStep p md rt d > md) :
    trajDoses p md rt (n + 1) d = [round2 d] := by
  rw [trajDoses, if_pos hd, trajDoses_stopped p md rt _ _ hstop]

theorem findIdx?_lt_length {α : Type} (q : α → Bool) (l : List α) (j : ℕ)
    (h : l.findIdx? q = some j) : j < l.length :=
  (List.findIdx?_eq_some_iff_findIdx_eq.mp h).1

/-- The requested-speed index always points inside the five-entry ladder. -/
theorem speedIdx_lt (speed : String) :
    (speed_options.findIdx? (fun s => s.label == speed)).getD 1 < speed_options.length := by
  rcases hf : speed_options.findIdx? (fun s => s.label == speed) with _ | j
  · rw [hf]
    decide
  · rw [hf]
    simpa using findIdx?_lt_length _ speed_options j hf

/-- The ladder segment the generator starts from is never empty. -/
theorem speedDrop_ne_nil (speed : String) :
    speed_options.drop ((speed_options.findIdx? (fun s => s.label == speed)).getD 1) ≠ [] := by
  intro hnil
  have := speedIdx_lt speed
  rw [List.drop_eq_nil_iff] at hnil
  omega

/-- Structure of every successful generator result: the ladder's leftover
schedule, one plateau step at `min_dose_mg`, and the optional hold step. -/
theorem generate_ok_shape (dose : ℚ) (speed : String) (md rt : ℚ)
    (h1 h2 : Option ℤ) (start : ℤ) (freq : String)
    (sched : List Step) (td : ℤ) (w : Option String)
    (h : generate_percent_taper_schedule dose speed md rt h1 h2 start freq
        = .ok (sched, td, w)) :
    ∃ so rest lr finalStep holdList,
      speed_options.drop ((speed_options.findIdx? (fun s => s.label == speed)).getD 1)
        = so :: rest ∧
      ladderLoop dose md rt start freq so rest none = .ok lr ∧
      w = lr.warning ∧
      sched = lr.schedule ++ [finalStep] ++ holdList ∧
      finalStep.dose_mg = md ∧
      finalStep.duration_days = lr.interval_days ∧
      finalStep.note = some "final daily dose" ∧
      (∀ s ∈ holdList, s.dose_mg = md) ∧
      (holdActive h1 h2 → holdList.length = 1) ∧
      (¬ holdActive h1 h2 → holdList = []) := by
  rw [generate_percent_taper_schedule] at h
  rcases hdrop : speed_options.drop
      ((speed_options.findIdx? (fun s => s.label == speed)).getD 1) with _ | ⟨so, rest⟩
  · rw [hdrop] at h
    exact absurd h (by simp)
  rw [hdrop] at h
  try dsimp only at h
  rcases hlad : ladderLoop dose md rt start freq so rest none with m | lr <;> rw [hlad] at h
  · exact absurd h (by simp)
  try dsimp only at h
  rcases hsd : split_dose md "diazepam" freq with _ | ⟨fs, af⟩ <;> rw [hsd] at h
  · exact absurd h (by simp)
  try dsimp only at h
  by_cases hc1 : lr.interval_days - 1 > maxDateOrdinal - lr.current_date
  · rw [if_pos hc1] at h
    exact absurd h (by simp)
  rw [if_neg hc1] at h
  by_cases hc2 : lr.current_date + lr.interval_days > maxDateOrdinal
  · rw [if_pos hc2] at h
    exact absurd h (by simp)
  rw [if_neg hc2] at h
  try dsimp only at h
  rcases h1 with _ | a <;> rcases h2 with _ | b
  ·
    simp only [Except.ok.injEq, Prod.mk.injEq] at h
    refine ⟨so, rest, lr, finalStepOf md lr fs af, [], hdrop, hlad, h.2.2.symm,
      by rw [← h.1]; simp, rfl, rfl, rfl, by simp, ?_, fun _ => rfl⟩
    rintro ⟨x, y, hx, _⟩
    exact absurd hx (by simp)
  ·
    simp only [Except.ok.injEq, Prod.mk.injEq] at h
    refine ⟨so, rest, lr, finalStepOf md lr fs af, [], hdrop, hlad, h.2.2.symm,
      by rw [← h.1]; simp, rfl, rfl, rfl, by simp, ?_, fun _ => rfl⟩
    rintro ⟨x, y, hx, _⟩
    exact absurd hx (by simp)
  ·
    simp only [Except.ok.injEq, Prod.mk.injEq] at h
    refine ⟨so, rest, lr, finalStepOf md lr fs af, [], hdrop, hlad, h.2.2.symm,
      by rw [← h.1]; simp, rfl, rfl, rfl, by simp, ?_, fun _ => rfl⟩
    rintro ⟨x, y, _, hy, _⟩
    exact absurd hy (by simp)
  ·
    try dsimp only at h
    by_cases hnz : a ≠ 0 ∧ b ≠ 0
    · rw [if_pos hnz] at h
      by_cases hc3 : a - 1 > maxDateOrdinal - (lr.current_date + lr.interval_days)
      · rw [if_pos hc3] at h
        exact absurd h (by simp)
      rw [if_neg hc3] at h
      simp only [Except.ok.injEq, Prod.mk.injEq] at h
      refine ⟨so, rest, lr, finalStepOf md lr fs af,
        [holdStepOf md lr fs af a b], hdrop, hlad, h.2.2.symm,
        by rw [← h.1], rfl, rfl, rfl, ?_, fun _ => rfl, ?_⟩
      · intro s hs
        rw [List.mem_singleton] at hs
        subst hs
        rfl
      · intro hno
        exact absurd ⟨a, b, rfl, rfl, hnz.1, hnz.2⟩ hno
    · rw [if_neg hnz] at h
      simp only [Except.ok.injEq, Prod.mk.injEq] at h
      refine ⟨so, rest, lr, finalStepOf md lr fs af, [], hdrop, hlad, h.2.2.symm,
        by rw [← h.1]; simp, rfl, rfl, rfl, by simp, ?_, fun _ => rfl⟩
      rintro ⟨x, y, hx, hy, hxz, hyz⟩
      simp only [Option.some.injEq] at hx hy
      subst hx
      subst hy
      exact absurd ⟨hxz, hyz⟩ hnz

/-! ## Concrete run helpers: executing the ladder symbolically -/

/-- The trajectory emits at most `fuel` doses. -/
theorem trajDoses_length_le (p md rt : ℚ) :
    ∀ (fuel : ℕ) (d : ℚ), (trajDoses p md rt fuel d).length ≤ fuel := by
  intro fuel
  induction fuel with
  | zero => intro d; simp [trajDoses]
  | succ n IH =>
      intro d
      rw [trajDoses]
      split_ifs
      · simpa using Nat.succ_le_succ (IH _)
      · simp

/-- One full attempt from the generator's fresh per-speed state, with the
default 0.5 mg floor and grid and `"auto"` dosing: the outcome is determined
by whether `iterDose` reaches the floor within 50 steps. -/
theorem attempt_run (p : ℚ) (i : ℤ) (dose : ℚ) (start : ℤ) (hi : 0 < i)
    (hdate : start + 50 * i ≤ year2100Ordinal) :
    ∃ Δ : List Step,
      Δ.map Step.dose_mg = trajDoses p (mkRat 1 2) (mkRat 1 2) max_steps dose ∧
      Δ.map Step.duration_days = List.replicate Δ.length i ∧
      attemptLoop p i (mkRat 1 2) (mkRat 1 2) "auto" max_steps ⟨[], dose, 1, start, 1, 0⟩
        = (if iterDose p (mkRat 1 2) (mkRat 1 2) max_steps dose ≤ mkRat 1 2 then
            AttemptOutcome.done ⟨Δ, iterDose p (mkRat 1 2) (mkRat 1 2) max_steps dose,
              1 + (Δ.length : ℤ) * i, start + (Δ.length : ℤ) * i,
              1 + (Δ.length : ℤ) * Int.fdiv i 7, Δ.length⟩
          else
            AttemptOutcome.tooMany ⟨Δ, iterDose p (mkRat 1 2) (mkRat 1 2) max_steps dose,
              1 + (Δ.length : ℤ) * i, start + (Δ.length : ℤ) * i,
              1 + (Δ.length : ℤ) * Int.fdiv i 7, Δ.length + 1⟩) := by
  obtain ⟨Δ, h1, h2, h3⟩ := attemptLoop_spec p i (mkRat 1 2) (mkRat 1 2) "auto"
    (fun d => split_dose_auto_isSome d "diazepam") hi max_steps
    ⟨[], dose, 1, start, 1, 0⟩ (by simpa [max_steps] using hdate)
  refine ⟨Δ, h1, h2, ?_⟩
  rw [h3]
  split_ifs <;> simp

/-- The generator's tail after a successful ladder run with no final-hold
arguments: append the plateau step and return. -/
theorem generate_tail (dose : ℚ) (speed : String) (start : ℤ) (lr : LadderResult)
    (so : SpeedOption) (rest : List SpeedOption) (fs : DoseSplit) (af : String)
    (hdrop : speed_options.drop
        ((speed_options.findIdx? (fun s => s.label == speed)).getD 1) = so :: rest)
    (hlad : ladderLoop dose (mkRat 1 2) (mkRat 1 2) start "auto" so rest none = .ok lr)
    (hfs : split_dose (mkRat 1 2) "diazepam" "auto" = some (fs, af))
    (hc1 : ¬ (lr.interval_days - 1 > maxDateOrdinal - lr.current_date))
    (hc2 : ¬ (lr.current_date + lr.interval_days > maxDateOrdinal)) :
    generate_percent_taper_schedule dose speed (mkRat 1 2) (mkRat 1 2) none none start "auto"
      = .ok (lr.schedule ++ [finalStepOf (mkRat 1 2) lr fs af],
          ((((lr.schedule ++ [finalStepOf (mkRat 1 2) lr fs af]).getLast?).map
            Step.end_day).getD 0),
          lr.warning) := by
  rw [generate_percent_taper_schedule, hdrop]
  dsimp only
  rw [hlad]
  dsimp only
  rw [hfs]
  dsimp only
  rw [if_neg hc1]
  try dsimp only
  rw [if_neg hc2]

/-- When all five ladder speeds keep the dose above the 0.5 mg floor for
the whole 50-step budget, the generator returns the fastest speed's
partial trajectory plus the plateau step, with the could-not-fit warning
(the "empty plan" of the spec never occurs). -/
theorem generate_exhaust (dose : ℚ) (start : ℤ)
    (hstuck : ∀ so ∈ speed_options,
      iterDose so.percent (mkRat 1 2) (mkRat 1 2) max_steps dose > mkRat 1 2)
    (hdate : start + 1400 ≤ year2100Ordinal) :
    ∃ sched td,
      generate_percent_taper_schedule dose "slow" (mkRat 1 2) (mkRat 1 2)
          none none start "auto"
        = .ok (sched, td, some couldNotFitWarning) ∧
      sched.map Step.dose_mg
        = trajDoses 20 (mkRat 1 2) (mkRat 1 2) max_steps dose ++ [mkRat 1 2] := by
  obtain ⟨Δ0, m0, u0, e0⟩ := attempt_run (mkRat 5 2) 28 dose start (by decide) (by linarith)
  obtain ⟨Δ1, m1, u1, e1⟩ := attempt_run 5 21 dose start (by decide) (by linarith)
  obtain ⟨Δ2, m2, u2, e2⟩ := attempt_run 10 14 dose start (by decide) (by linarith)
  obtain ⟨Δ3, m3, u3, e3⟩ := attempt_run 15 14 dose start (by decide) (by linarith)
  obtain ⟨Δ4, m4, u4, e4⟩ := attempt_run 20 7 dose start (by decide) (by linarith)
  rw [if_neg (not_le.mpr (hstuck ⟨mkRat 5 2, 28, "slow"⟩ (by decide)))] at e0
  rw [if_neg (not_le.mpr (hstuck ⟨5, 21, "standard"⟩ (by decide)))] at e1
  rw [if_neg (not_le.mpr (hstuck ⟨10, 14, "fast"⟩ (by decide)))] at e2
  rw [if_neg (not_le.mpr (hstuck ⟨15, 14, "very fast"⟩ (by decide)))] at e3
  rw [if_neg (not_le.mpr (hstuck ⟨20, 7, "ultra fast"⟩ (by decide)))] at e4
  obtain ⟨⟨fs, af⟩, hfs⟩ := Option.isSome_iff_exists.mp
    (split_dose_auto_isSome (mkRat 1 2) "diazepam")
  have hL4 : (Δ4.length : ℤ) ≤ 50 := by
    have hlen := congrArg List.length m4
    simp only [List.length_map] at hlen
    have h50 := trajDoses_length_le 20 (mkRat 1 2) (mkRat 1 2) max_steps dose
    rw [show max_steps = 50 from rfl] at hlen h50
    omega
  have hlad : ladderLoop dose (mkRat 1 2) (mkRat 1 2) start "auto"
      ⟨mkRat 5 2, 28, "slow"⟩ [⟨5, 21, "standard"⟩, ⟨10, 14, "fast"⟩,
        ⟨15, 14, "very fast"⟩, ⟨20, 7, "ultra fast"⟩] none
      = .ok ⟨Δ4, iterDose 20 (mkRat 1 2) (mkRat 1 2) max_steps dose,
          1 + (Δ4.length : ℤ) * 7, start + (Δ4.length : ℤ) * 7,
          1 + (Δ4.length : ℤ) * Int.fdiv 7 7, 7, some couldNotFitWarning⟩ := by
    rw [ladderLoop_step _ _ _ _ _ _ _ _ _ _ e0, ladderLoop_step _ _ _ _ _ _ _ _ _ _ e1,
        ladderLoop_step _ _ _ _ _ _ _ _ _ _ e2, ladderLoop_step _ _ _ _ _ _ _ _ _ _ e3,
        ladderLoop_exhaust _ _ _ _ _ _ _ _ e4]
  have hy : year2100Ordinal = 767009 := rfl
  have hmax : maxDateOrdinal = 3652059 := rfl
  have hc1 : ¬ ((7 : ℤ) - 1 > maxDateOrdinal - (start + (Δ4.length : ℤ) * 7)) := by
    rw [hmax]
    rw [hy] at hdate
    omega
  have hc2 : ¬ (start + (Δ4.length : ℤ) * 7 + 7 > maxDateOrdinal) := by
    rw [hmax]
    rw [hy] at hdate
    omega
  have hG := generate_tail dose "slow" start _ _ _ fs af (by decide) hlad hfs hc1 hc2
  refine ⟨_, _, hG, ?_⟩
  rw [List.map_append, m4]
  simp [finalStepOf]

/-! ## The claims -/

/-- C1 (corrected): for every successful plan generated with the default
0.5 mg floor and rounding grid and `"auto"` dosing from a starting dose on
the half-integer grid, the emitted `dose_mg` sequence is non-increasing
from the first step to the last, and the last step that is not the
optional final hold carries exactly `min_dose_mg` (the grid hypothesis is
necessary: an off-grid 0.95 mg start rounds UP to 1.0 mg on the second
step). -/
theorem C1_theorem (dose : ℚ) (k : ℤ) (speed : String) (h1 h2 : Option ℤ)
    (start : ℤ) (sched : List Step) (td : ℤ) (w : Option String)
    (hgrid : dose = (k : ℚ)/2)
    (h : generate_percent_taper_schedule dose speed (mkRat 1 2) (mkRat 1 2)
        h1 h2 start "auto" = .ok (sched, td, w)) :
    List.Chain' (· ≥ ·) (sched.map Step.dose_mg) ∧
    ∃ lead finalStep holdList,
      sched = lead ++ [finalStep] ++ holdList ∧
      finalStep.dose_mg = mkRat 1 2 ∧
      finalStep.note = some "final daily dose" ∧
      ∀ s ∈ holdList, s.dose_mg = mkRat 1 2 := by
  obtain ⟨so, rest, lr, F, H, hdrop, hlad, hw, hsched, hFd, hFdur, hFn, hHd, hHa, hHn⟩ :=
    generate_ok_shape dose speed (mkRat 1 2) (mkRat 1 2) h1 h2 start "auto" sched td w h
  obtain ⟨so', hmem, hdz⟩ := ladderLoop_ok_doses dose (mkRat 1 2) (mkRat 1 2) start "auto"
    rest so none lr hlad
  have hmem' : so' ∈ so :: rest := by
    rcases hmem with rfl | hm
    · exact List.mem_cons_self _ _
    · exact List.mem_cons_of_mem _ hm
  have hso' : so' ∈ speed_options := List.mem_of_mem_drop (by rw [hdrop]; exact hmem')
  have hp : 0 ≤ so'.percent := by
    have hall : ∀ s ∈ speed_options, 0 ≤ s.percent := by decide
    exact hall so' hso'
  have hchain : List.Chain' (· ≥ ·) (lr.schedule.map Step.dose_mg) := by
    rw [hdz, hgrid]
    exact trajDoses_chain so'.percent hp max_steps k
  have hge : ∀ x ∈ lr.schedule.map Step.dose_mg, mkRat 1 2 ≤ x := by
    intro x hx
    rw [hdz] at hx
    obtain ⟨d0, rfl, hd0⟩ :=
      trajDoses_mem so'.percent (mkRat 1 2) (mkRat 1 2) max_steps dose x hx
    rw [mkRat_one_two] at hd0 ⊢
    exact round2_ge_half d0 hd0
  have hHm : H = [] ∨ ∃ s, H = [s] ∧ s.dose_mg = mkRat 1 2 := by
    by_cases hh : holdActive h1 h2
    · obtain ⟨s, hs⟩ := List.length_eq_one.mp (hHa hh)
      exact Or.inr ⟨s, hs, hHd s (by rw [hs]; exact List.mem_singleton_self s)⟩
    · exact Or.inl (hHn hh)
  refine ⟨?_, lr.schedule, F, H, hsched, hFd, hFn, hHd⟩
  rw [hsched, List.append_assoc, List.map_append, List.chain'_append]
  refine ⟨hchain, ?_, ?_⟩
  · rcases hHm with rfl | ⟨s, rfl, hsd⟩
    · simp
    · simp only [List.singleton_append, List.map_cons, List.map_nil]
      rw [hFd, hsd]
      simp [List.chain'_pair]
  · intro x hx y hy
    have hx' : x ∈ lr.schedule.map Step.dose_mg := List.mem_of_mem_getLast? hx
    have hy' : y = F.dose_mg := by
      simp only [List.singleton_append, List.map_cons, List.head?_cons,
        Option.mem_def, Option.some.injEq] at hy
      first
        | exact hy
        | exact hy.symm
    rw [hy', hFd]
    exact hge x hx'

/-- C1 witness: the trivial half-grid run at 0.5 mg, "slow". -/
theorem C1_witness : ∃ sched td w,
    generate_percent_taper_schedule (mkRat 1 2) "slow" (mkRat 1 2) (mkRat 1 2)
        none none 739447 "auto" = .ok (sched, td, w) ∧
    List.Chain' (· ≥ ·) (sched.map Step.dose_mg) ∧
    ∃ lead finalStep holdList,
      sched = lead ++ [finalStep] ++ holdList ∧
      finalStep.dose_mg = mkRat 1 2 ∧
      finalStep.note = some "final daily dose" ∧
      ∀ s ∈ holdList, s.dose_mg = mkRat 1 2 := by
  rcases hg : generate_percent_taper_schedule (mkRat 1 2) "slow" (mkRat 1 2) (mkRat 1 2)
      none none 739447 "auto" with m | ⟨sched, td, w⟩
  · have hok : (generate_percent_taper_schedule (mkRat 1 2) "slow" (mkRat 1 2) (mkRat 1 2)
        none none 739447 "auto").isOk = true := by decide
    rw [hg] at hok
    exact Bool.noConfusion hok
  · obtain ⟨hc, hrest⟩ := C1_theorem (mkRat 1 2) 1 "slow" none none 739447 sched td w
      (by rw [mkRat_one_two]; norm_num) hg
    exact ⟨sched, td, w, rfl, hc, hrest⟩

/-- C1 counterexample: from the positive off-grid start 0.95 mg the second
step dose (1.0 mg) exceeds the first (0.95 mg), so the emitted dose
sequence of the returned plan is not non-increasing. -/
theorem C1_counterexample : ∃ sched td w,
    generate_percent_taper_schedule (mkRat 19 20) "slow" (mkRat 1 2) (mkRat 1 2)
        none none 739447 "auto" = .ok (sched, td, w) ∧
    ¬ List.Chain' (· ≥ ·) (sched.map Step.dose_mg) := by
  obtain ⟨sched, td, hg, hmap⟩ := generate_exhaust (mkRat 19 20) 739447
    (by decide) (by decide)
  refine ⟨sched, td, some couldNotFitWarning, hg, ?_⟩
  rw [hmap, show trajDoses 20 (mkRat 1 2) (mkRat 1 2) max_steps (mkRat 19 20)
      = mkRat 19 20 :: 1 :: List.replicate 48 1 from by decide]
  intro hch
  rw [List.cons_append, List.cons_append, List.chain'_cons] at hch
  exact absurd hch.1 (by decide : ¬ ((1 : ℚ) ≤ mkRat 19 20))

/-- C2 (code bug): the spec's anti-stall mechanism does not exist in the
dose update of lines 150-152: 10.0 mg is a fixpoint of the "slow" (2.5 %)
update (19.5 half-units ties to the even 20), so a 20 mg start at "slow"
parks at 10.0 mg forever instead of decreasing strictly to 0.5 mg, every
ladder speed likewise stalls, and the returned plan carries the
could-not-fit warning with a non-strictly-decreasing dose sequence. -/
theorem C2_theorem : ∃ sched td,
    generate_percent_taper_schedule 20 "slow" (mkRat 1 2) (mkRat 1 2)
        none none 739447 "auto" = .ok (sched, td, some couldNotFitWarning) ∧
    ¬ List.Chain' (· > ·) (sched.map Step.dose_mg) ∧
    trajStep (mkRat 5 2) (mkRat 1 2) (mkRat 1 2) 10 = 10 ∧
    iterDose (mkRat 5 2) (mkRat 1 2) (mkRat 1 2) max_steps 20 = 10 := by
  obtain ⟨sched, td, hg, hmap⟩ := generate_exhaust 20 739447 (by decide) (by decide)
  refine ⟨sched, td, hg, ?_, by decide, by decide⟩
  rw [hmap, show trajDoses 20 (mkRat 1 2) (mkRat 1 2) max_steps 20
      = [20, 16, 13, mkRat 21 2, mkRat 17 2, 7, mkRat 11 2, mkRat 9 2, mkRat 7 2,
          3, mkRat 5 2, 2, mkRat 3 2] ++ List.replicate 37 1 from by decide]
  intro hch
  have hin : [(1 : ℚ), 1] <:+:
      ([20, 16, 13, mkRat 21 2, mkRat 17 2, 7, mkRat 11 2, mkRat 9 2, mkRat 7 2,
          3, mkRat 5 2, 2, mkRat 3 2] ++ List.replicate 37 1 ++ [mkRat 1 2]) := by decide
  have hpair := hch.infix hin
  rw [List.chain'_pair] at hpair
  exact absurd hpair (lt_irrefl 1)

/-- C3 (corrected): when every ladder speed keeps the dose above the floor
for the whole 50-step budget (ladder exhausted), the engine does NOT
return an empty plan: it returns the fastest speed's 50-step partial
trajectory plus the final plateau step, with the could-not-fit warning. -/
theorem C3_theorem (dose : ℚ) (start : ℤ)
    (hstuck : ∀ so ∈ speed_options,
      iterDose so.percent (mkRat 1 2) (mkRat 1 2) max_steps dose > mkRat 1 2)
    (hdate : start + 1400 ≤ year2100Ordinal) :
    ∃ sched td,
      generate_percent_taper_schedule dose "slow" (mkRat 1 2) (mkRat 1 2)
          none none start "auto"
        = .ok (sched, td, some couldNotFitWarning) ∧
      sched ≠ [] ∧
      sched.map Step.dose_mg
        = trajDoses 20 (mkRat 1 2) (mkRat 1 2) max_steps dose ++ [mkRat 1 2] := by
  obtain ⟨sched, td, hg, hmap⟩ := generate_exhaust dose start hstuck hdate
  refine ⟨sched, td, hg, ?_, hmap⟩
  intro hnil
  rw [hnil] at hmap
  simp at hmap

/-- C3 witness: the 1.0 mg start stalls at every speed, and the returned
plan is the non-empty 50-step ultra-fast partial plus the plateau step. -/
theorem C3_witness : ∃ sched td,
    generate_percent_taper_schedule 1 "slow" (mkRat 1 2) (mkRat 1 2)
        none none 739447 "auto"
      = .ok (sched, td, some couldNotFitWarning) ∧
    sched ≠ [] ∧
    sched.map Step.dose_mg
      = trajDoses 20 (mkRat 1 2) (mkRat 1 2) max_steps 1 ++ [mkRat 1 2] :=
  C3_theorem 1 739447 (by decide) (by decide)

/-- C3 counterexample: at the 1.0 mg start the ladder is exhausted, yet the
returned plan has 51 steps — not the empty plan the spec promises. -/
theorem C3_counterexample : ∃ sched td,
    generate_percent_taper_schedule 1 "slow" (mkRat 1 2) (mkRat 1 2)
        none none 739447 "auto"
      = .ok (sched, td, some couldNotFitWarning) ∧
    sched ≠ [] ∧ sched.length = 51 := by
  obtain ⟨sched, td, hg, hmap⟩ := generate_exhaust 1 739447 (by decide) (by decide)
  refine ⟨sched, td, hg, ?_, ?_⟩
  · intro hnil
    rw [hnil] at hmap
    simp at hmap
  · have hlen := congrArg List.length hmap
    simp only [List.length_map, List.length_append, List.length_singleton] at hlen
    rw [hlen]
    decide

/-- C4 (code bug): a 0.9 mg start at "slow" needs more than 50 steps at
the first four rungs and is generated at the escalated 'ultra fast' rung
(7-day steps, doses 0.9 then 0.5), yet the warning names 'very fast' — the
rung that just failed — because line 169 formats
`speed_options[speed_idx-1]` after `speed_idx += 1`. -/
theorem C4_theorem : ∃ sched td,
    generate_percent_taper_schedule (mkRat 9 10) "slow" (mkRat 1 2) (mkRat 1 2)
        none none 739447 "auto"
      = .ok (sched, td, some (escalationWarning "very fast")) ∧
    sched.map Step.dose_mg = [mkRat 9 10, mkRat 1 2] ∧
    sched.map Step.duration_days = [7, 7] ∧
    (∀ so ∈ speed_options, so.interval_days = 7 → so.label = "ultra fast") ∧
    escalationWarning "very fast" ≠ escalationWarning "ultra fast" := by
  obtain ⟨Δ0, m0, u0, e0⟩ := attempt_run (mkRat 5 2) 28 (mkRat 9 10) 739447
    (by decide) (by decide)
  obtain ⟨Δ1, m1, u1, e1⟩ := attempt_run 5 21 (mkRat 9 10) 739447 (by decide) (by decide)
  obtain ⟨Δ2, m2, u2, e2⟩ := attempt_run 10 14 (mkRat 9 10) 739447 (by decide) (by decide)
  obtain ⟨Δ3, m3, u3, e3⟩ := attempt_run 15 14 (mkRat 9 10) 739447 (by decide) (by decide)
  obtain ⟨Δ4, m4, u4, e4⟩ := attempt_run 20 7 (mkRat 9 10) 739447 (by decide) (by decide)
  rw [show iterDose (mkRat 5 2) (mkRat 1 2) (mkRat 1 2) max_steps (mkRat 9 10) = 1
      from by decide] at e0
  rw [show iterDose 5 (mkRat 1 2) (mkRat 1 2) max_steps (mkRat 9 10) = 1
      from by decide] at e1
  rw [show iterDose 10 (mkRat 1 2) (mkRat 1 2) max_steps (mkRat 9 10) = 1
      from by decide] at e2
  rw [show iterDose 15 (mkRat 1 2) (mkRat 1 2) max_steps (mkRat 9 10) = 1
      from by decide] at e3
  rw [show iterDose 20 (mkRat 1 2) (mkRat 1 2) max_steps (mkRat 9 10) = mkRat 1 2
      from by decide] at e4
  rw [if_neg (by decide : ¬ ((1 : ℚ) ≤ mkRat 1 2))] at e0 e1 e2 e3
  rw [if_pos (le_refl (mkRat 1 2))] at e4
  rw [show trajDoses 20 (mkRat 1 2) (mkRat 1 2) max_steps (mkRat 9 10)
      = [mkRat 9 10] from by decide] at m4
  have hL4 : Δ4.length = 1 := by
    have hlen := congrArg List.length m4
    simpa using hlen
  have hlad : ladderLoop (mkRat 9 10) (mkRat 1 2) (mkRat 1 2) 739447 "auto"
      ⟨mkRat 5 2, 28, "slow"⟩ [⟨5, 21, "standard"⟩, ⟨10, 14, "fast"⟩,
        ⟨15, 14, "very fast"⟩, ⟨20, 7, "ultra fast"⟩] none
      = .ok ⟨Δ4, mkRat 1 2,
          1 + (Δ4.length : ℤ) * 7, 739447 + (Δ4.length : ℤ) * 7,
          1 + (Δ4.length : ℤ) * Int.fdiv 7 7, 7, some (escalationWarning "very fast")⟩ := by
    rw [ladderLoop_step (mkRat 9 10) (mkRat 1 2) (mkRat 1 2) 739447 "auto"
          ⟨mkRat 5 2, 28, "slow"⟩ ⟨5, 21, "standard"⟩
          [⟨10, 14, "fast"⟩, ⟨15, 14, "very fast"⟩, ⟨20, 7, "ultra fast"⟩] none _ e0,
        ladderLoop_step (mkRat 9 10) (mkRat 1 2) (mkRat 1 2) 739447 "auto"
          ⟨5, 21, "standard"⟩ ⟨10, 14, "fast"⟩
          [⟨15, 14, "very fast"⟩, ⟨20, 7, "ultra fast"⟩]
          (some (escalationWarning "slow")) _ e1,
        ladderLoop_step (mkRat 9 10) (mkRat 1 2) (mkRat 1 2) 739447 "auto"
          ⟨10, 14, "fast"⟩ ⟨15, 14, "very fast"⟩ [⟨20, 7, "ultra fast"⟩]
          (some (escalationWarning "standard")) _ e2,
        ladderLoop_step (mkRat 9 10) (mkRat 1 2) (mkRat 1 2) 739447 "auto"
          ⟨15, 14, "very fast"⟩ ⟨20, 7, "ultra fast"⟩ []
          (some (escalationWarning "fast")) _ e3,
        ladderLoop_done (mkRat 9 10) (mkRat 1 2) (mkRat 1 2) 739447 "auto"
          ⟨20, 7, "ultra fast"⟩ [] (some (escalationWarning "very fast")) _ e4]
  have hc1 : ¬ ((7 : ℤ) - 1 > maxDateOrdinal - (739447 + (Δ4.length : ℤ) * 7)) := by
    rw [hL4]
    decide
  have hc2 : ¬ (739447 + (Δ4.length : ℤ) * 7 + 7 > maxDateOrdinal) := by
    rw [hL4]
    decide
  obtain ⟨⟨fs, af⟩, hfs⟩ := Option.isSome_iff_exists.mp
    (split_dose_auto_isSome (mkRat 1 2) "diazepam")
  have hG := generate_tail (mkRat 9 10) "slow" 739447 _ _ _ fs af (by decide) hlad hfs hc1 hc2
  refine ⟨_, _, hG, ?_, ?_, by decide, by decide⟩
  · rw [List.map_append, m4]
    simp [finalStepOf]
  · rw [List.map_append, u4, hL4]
    simp [finalStepOf]

/-- C5 (corrected): a date-range `ValueError` raised inside an attempt is
NOT recovered by escalation — only the too-many-steps message is caught —
so it surfaces to the caller no matter how many faster speeds remain in
the ladder. -/
theorem C5_theorem (dose : ℚ) (speed : String) (md rt : ℚ) (h1 h2 : Option ℤ)
    (start : ℤ) (freq : String) (so : SpeedOption) (rest : List SpeedOption) (m : String)
    (hdrop : speed_options.drop
        ((speed_options.findIdx? (fun s => s.label == speed)).getD 1) = so :: rest)
    (hA : attemptLoop so.percent so.interval_days md rt freq max_steps
        ⟨[], dose, 1, start, 1, 0⟩ = .err m) :
    generate_percent_taper_schedule dose speed md rt h1 h2 start freq = .error m := by
  rw [generate_percent_taper_schedule, hdrop]
  dsimp only
  rw [ladderLoop_err dose md rt start freq so rest none m hA]

/-- C5 witness: from ordinal 767005 (late 2100) the very first "slow" step
crosses year 2100 and the error surfaces, with four faster speeds unused. -/
theorem C5_witness :
    generate_percent_taper_schedule 1 "slow" (mkRat 1 2) (mkRat 1 2)
        none none 767005 "auto" = .error "Taper schedule exceeds year 2100." :=
  C5_theorem 1 "slow" (mkRat 1 2) (mkRat 1 2) none none 767005 "auto"
    ⟨mkRat 5 2, 28, "slow"⟩
    [⟨5, 21, "standard"⟩, ⟨10, 14, "fast"⟩, ⟨15, 14, "very fast"⟩, ⟨20, 7, "ultra fast"⟩]
    "Taper schedule exceeds year 2100." (by decide) (by decide)

/-- C5 counterexample: at start ordinal 767000 the "slow" attempt's date
error propagates out of `generate_percent_taper_schedule` even though the
requested speed was the lowest rung and the four faster speeds remained
(the drop of the ladder at the requested index is the whole ladder). -/
theorem C5_counterexample :
    generate_percent_taper_schedule 1 "slow" (mkRat 1 2) (mkRat 1 2)
        none none 767000 "auto" = .error "Taper schedule exceeds year 2100." ∧
    speed_options.drop
        ((speed_options.findIdx? (fun s => s.label == "slow")).getD 1)
      = speed_options := by
  constructor
  · decide
  · decide

/-- C6 (corrected): there is no input validation: an unrecognized speed
label silently falls back to the "standard" rung (index 1) and a
non-positive dose yields a successful plateau-only plan with no warning —
no immediate `InvalidInput` failure exists. -/
theorem C6_theorem (dose : ℚ) (speed : String) (rt : ℚ) (h1 h2 : Option ℤ)
    (start : ℤ) (freq : String)
    (hunknown : ∀ so ∈ speed_options, so.label ≠ speed)
    (hle : dose ≤ 0) :
    generate_percent_taper_schedule dose speed (mkRat 1 2) rt h1 h2 start freq
      = generate_percent_taper_schedule dose "standard" (mkRat 1 2) rt h1 h2 start freq ∧
    ∀ sched td w,
      generate_percent_taper_schedule dose speed (mkRat 1 2) rt h1 h2 start freq
        = .ok (sched, td, w) →
      w = none ∧ sched ≠ [] ∧
        ∃ finalStep holdList, sched = finalStep :: holdList ∧
          finalStep.dose_mg = mkRat 1 2 ∧ finalStep.note = some "final daily dose" := by
  have hidx : speed_options.findIdx? (fun s => s.label == speed) = none := by
    rw [List.findIdx?_eq_none_iff]
    intro s hs
    simpa using hunknown s hs
  have hdropeq : speed_options.drop
        ((speed_options.findIdx? (fun s => s.label == speed)).getD 1)
      = speed_options.drop
        ((speed_options.findIdx? (fun s => s.label == "standard")).getD 1) := by
    rw [hidx, show speed_options.findIdx? (fun s => s.label == "standard") = some 1
      from by decide]
    rfl
  constructor
  · rw [generate_percent_taper_schedule, generate_percent_taper_schedule, hdropeq]
  · intro sched td w hg
    obtain ⟨so, rest, lr, F, H, hdrop, hlad, hw, hsched, hFd, hFdur, hFn, hHd, hHa, hHn⟩ :=
      generate_ok_shape dose speed (mkRat 1 2) rt h1 h2 start freq sched td w hg
    have hle2 : ¬ dose > mkRat 1 2 := by
      rw [mkRat_one_two]
      intro hgt
      linarith
    have hA := attemptLoop_done_of_le so.percent so.interval_days (mkRat 1 2) rt freq
      max_steps ⟨[], dose, 1, start, 1, 0⟩ hle2
    have hl2 := ladderLoop_done dose (mkRat 1 2) rt start freq so rest none _ hA
    rw [hlad] at hl2
    injection hl2 with h'
    subst h'
    exact ⟨hw.trans rfl, by rw [hsched]; simp, F, H, by simpa using hsched, hFd, hFn⟩

/-- C6 witness: dose −5 with the unknown label "turbo" behaves exactly as
"standard" and returns a plateau-only plan rather than an error. -/
theorem C6_witness :
    generate_percent_taper_schedule (-5) "turbo" (mkRat 1 2) (mkRat 1 2)
        none none 739447 "auto"
      = generate_percent_taper_schedule (-5) "standard" (mkRat 1 2) (mkRat 1 2)
        none none 739447 "auto" ∧
    ∀ sched td w,
      generate_percent_taper_schedule (-5) "turbo" (mkRat 1 2) (mkRat 1 2)
          none none 739447 "auto"
        = .ok (sched, td, w) →
      w = none ∧ sched ≠ [] ∧
        ∃ finalStep holdList, sched = finalStep :: holdList ∧
          finalStep.dose_mg = mkRat 1 2 ∧ finalStep.note = some "final daily dose" :=
  C6_theorem (-5) "turbo" (mkRat 1 2) none none 739447 "auto" (by decide) (by decide)

/-- C6 counterexample: the engine returns a successful non-empty plan for
dose −5 mg with the unrecognized speed "turbo" — no `InvalidInput` error
is raised for either invalid input. -/
theorem C6_counterexample : ∃ sched td w,
    generate_percent_taper_schedule (-5) "turbo" (mkRat 1 2) (mkRat 1 2)
        none none 739447 "auto" = .ok (sched, td, w) ∧ sched ≠ [] := by
  rcases hg : generate_percent_taper_schedule (-5) "turbo" (mkRat 1 2) (mkRat 1 2)
      none none 739447 "auto" with m | ⟨sched, td, w⟩
  · have hok : (generate_percent_taper_schedule (-5) "turbo" (mkRat 1 2) (mkRat 1 2)
        none none 739447 "auto").isOk = true := by decide
    rw [hg] at hok
    exact Bool.noConfusion hok
  · refine ⟨sched, td, w, rfl, ?_⟩
    obtain ⟨so, rest, lr, F, H, _, _, _, hsched, _, _, _, _, _, _⟩ :=
      generate_ok_shape (-5) "turbo" (mkRat 1 2) (mkRat 1 2) none none 739447 "auto"
        sched td w hg
    rw [hsched]
    simp

/-- C7 (corrected): the 0.01 mg reconstruction guarantee holds exactly on
the achievability-checked paths: whenever `can_achieve` accepts a dose
(the test `split_dose`'s auto resolution uses to accept "once"/"bid"/"tid"),
the greedy combination reconstructs that dose to within 0.005 mg.  Outside
those checks — including an explicitly requested frequency, not only the
forced "tid" fallback — no such bound holds (e.g. 1.5 mg reconstructs to
1.0 mg). -/
theorem C7_theorem (d : ℚ) (med : String) (h : can_achieve d med = true) :
    |comboTotal (get_pill_combination d med) - d| ≤ 1/200 := by
  rw [can_achieve] at h
  have heq := of_decide_eq_true h
  have habs := round2_abs_le (comboTotal (get_pill_combination d med))
  rw [heq] at habs
  rw [abs_sub_comm] at habs
  exact habs

/-- C7 witness: 1.0 mg diazepam is achievable (half of a 2 mg tablet) and
its combination reconstructs it within the rounding tolerance. -/
theorem C7_witness : can_achieve 1 "diazepam" = true ∧
    |comboTotal (get_pill_combination 1 "diazepam") - 1| ≤ 1/200 :=
  ⟨by decide, C7_theorem 1 "diazepam" (by decide)⟩

/-- C7 counterexample: 1.5 mg diazepam — a dose the taper trajectories
produce — reconstructs to 1.0 mg (error 0.5 mg > 0.01 mg), and this
combination is emitted outside the forced "tid" fallback, e.g. by the
explicitly requested "once" frequency. -/
theorem C7_counterexample :
    get_pill_combination (mkRat 3 2) "diazepam" = [(2, mkRat 1 2)] ∧
    comboTotal (get_pill_combination (mkRat 3 2) "diazepam") = 1 ∧
    ¬ (|comboTotal (get_pill_combination (mkRat 3 2) "diazepam") - mkRat 3 2| ≤ 1/100) ∧
    split_dose (mkRat 3 2) "diazepam" "once"
      = some ([("AM", [(2, mkRat 1 2)])], "once") := by
  refine ⟨by decide, by decide, ?_, by decide⟩
  rw [show comboTotal (get_pill_combination (mkRat 3 2) "diazepam") = 1 from by decide,
      show (mkRat 3 2 : ℚ) = 3/2 from by rw [Rat.mkRat_eq_div]; norm_num]
  rw [show (1 : ℚ) - 3/2 = -(1/2) from by norm_num, abs_neg,
      abs_of_nonneg (by norm_num : (0 : ℚ) ≤ 1/2)]
  norm_num

/-- `assign_split_doses` succeeds for every frequency `freq_map` knows. -/
theorem assign_split_isSome (d : ℚ) (med f : String) (hf : (freq_map f).isSome) :
    (assign_split_doses d med f).isSome := by
  rw [assign_split_doses]
  obtain ⟨n, hn⟩ := Option.isSome_iff_exists.mp hf
  rw [hn]
  rfl

/-- C8 (confirmed): `split_dose` with frequency "auto" resolves the
frequency exactly as the spec orders it — "once" when the whole dose's
combination reconstructs it after 2-decimal rounding, else "bid" when both
even-split halves are achievable, else "tid" (whether or not the thirds
are all achievable, the fallback produces the same "tid" assignment). -/
theorem C8_theorem (d : ℚ) (med : String) :
    ∃ fs, split_dose d med "auto" = some (fs, autoFrequencySpec d med) ∧
      assign_split_doses d med (autoFrequencySpec d med) = some fs := by
  rw [split_dose, if_pos rfl]
  dsimp only
  rw [autoFrequencySpec]
  by_cases hA1 : can_achieve d med
  · rw [if_pos hA1]
    rw [can_achieve] at hA1
    have hA1' := (of_decide_eq_true hA1).symm
    rw [if_pos hA1']
    obtain ⟨fs, hfs⟩ := Option.isSome_iff_exists.mp
      (assign_split_isSome d med "once" (by decide))
    exact ⟨fs, by rw [hfs]; rfl, hfs⟩
  · rw [if_neg hA1]
    have hA1' : ¬ (d = round2 (comboTotal (get_pill_combination d med))) := by
      intro he
      exact hA1 (by rw [can_achieve]; exact decide_eq_true he.symm)
    rw [if_neg hA1']
    by_cases hA2 : (even_split d 2).all (fun x => can_achieve x med)
    · rw [if_pos hA2, if_pos hA2]
      obtain ⟨fs, hfs⟩ := Option.isSome_iff_exists.mp
        (assign_split_isSome d med "bid" (by decide))
      exact ⟨fs, by rw [hfs]; rfl, hfs⟩
    · rw [if_neg hA2, if_neg hA2]
      by_cases hA3 : (even_split d 3).all (fun x => can_achieve x med)
      · rw [if_pos hA3]
        obtain ⟨fs, hfs⟩ := Option.isSome_iff_exists.mp
          (assign_split_isSome d med "tid" (by decide))
        exact ⟨fs, by rw [hfs]; rfl, hfs⟩
      · rw [if_neg hA3]
        obtain ⟨fs, hfs⟩ := Option.isSome_iff_exists.mp
          (assign_split_isSome d med "tid" (by decide))
        exact ⟨fs, by rw [hfs]; rfl, hfs⟩

/-- C9 (confirmed): the equivalency converter returns
`round(dose * (10 / table[name]), 2)` for every case-folded name in the
potency table, fails with the unsupported-medication error for an absent
name, is bypassed entirely by `create_bzd_taper_plan` when the input
medication is diazepam (the dose reaches the generator unchanged), and
converts 1.0 mg clonazepam to 20.0 mg diazepam-equivalent. -/
theorem C9_theorem (dose : ℚ) (med : String) :
    (∀ v, EQUIVALENTS_TO_DIAZEPAM_MG.lookup (strLower med) = some v →
        convert_to_diazepam dose med = .ok (round2 (qmul dose (qdiv 10 v)))) ∧
    (EQUIVALENTS_TO_DIAZEPAM_MG.lookup (strLower med) = none →
        ∃ m, convert_to_diazepam dose med = .error m) ∧
    (∀ speed rt h1 h2 start freq, strLower med = "diazepam" →
        create_bzd_taper_plan med dose speed rt h1 h2 start freq
          = generate_percent_taper_schedule dose speed (mkRat 1 2) rt h1 h2 start freq) ∧
    convert_to_diazepam 1 "clonazepam" = .ok 20 := by
  refine ⟨?_, ?_, ?_, by decide⟩
  · intro v hv
    rw [convert_to_diazepam, hv]
  · intro hv
    rw [convert_to_diazepam, hv]
    exact ⟨_, rfl⟩
  · intro speed rt h1 h2 start freq hmed
    rw [create_bzd_taper_plan, if_neg (not_not_intro hmed)]

/-- C10 (confirmed): every successful call returns a non-empty schedule
containing the final plateau step at `min_dose_mg`; when the starting dose
is already at or below `min_dose_mg` the schedule is exactly that plateau
step plus the optional final-hold step, with no warning. -/
theorem C10_theorem (dose : ℚ) (speed : String) (md rt : ℚ) (h1 h2 : Option ℤ)
    (start : ℤ) (freq : String) (sched : List Step) (td : ℤ) (w : Option String)
    (h : generate_percent_taper_schedule dose speed md rt h1 h2 start freq
        = .ok (sched, td, w)) :
    sched ≠ [] ∧
    (∃ F ∈ sched, F.dose_mg = md ∧ F.note = some "final daily dose") ∧
    (¬ dose > md →
      w = none ∧
      ∃ F holdList, sched = F :: holdList ∧ F.dose_mg = md ∧
        F.note = some "final daily dose" ∧
        (∀ s ∈ holdList, s.dose_mg = md) ∧
        (holdActive h1 h2 → holdList.length = 1) ∧
        (¬ holdActive h1 h2 → holdList = [])) := by
  obtain ⟨so, rest, lr, F, H, hdrop, hlad, hw, hsched, hFd, hFdur, hFn, hHd, hHa, hHn⟩ :=
    generate_ok_shape dose speed md rt h1 h2 start freq sched td w h
  refine ⟨by rw [hsched]; simp, ⟨F, by rw [hsched]; simp, hFd, hFn⟩, ?_⟩
  intro hle
  have hA := attemptLoop_done_of_le so.percent so.interval_days md rt freq
    max_steps ⟨[], dose, 1, start, 1, 0⟩ hle
  have hl2 := ladderLoop_done dose md rt start freq so rest none _ hA
  rw [hlad] at hl2
  injection hl2 with h'
  subst h'
  exact ⟨hw.trans rfl, F, H, by simpa using hsched, hFd, hFn, hHd, hHa, hHn⟩

/-- C10 witness: a 0.3 mg start (below the 0.5 mg floor) at "standard"
returns exactly the plateau step with no warning. -/
theorem C10_witness : ∃ sched td w,
    generate_percent_taper_schedule (mkRat 3 10) "standard" (mkRat 1 2) (mkRat 1 2)
        none none 739447 "auto" = .ok (sched, td, w) ∧
    (sched ≠ [] ∧
     (∃ F ∈ sched, F.dose_mg = mkRat 1 2 ∧ F.note = some "final daily dose") ∧
     (¬ (mkRat 3 10 : ℚ) > mkRat 1 2 →
       w = none ∧
       ∃ F holdList, sched = F :: holdList ∧ F.dose_mg = mkRat 1 2 ∧
         F.note = some "final daily dose" ∧
         (∀ s ∈ holdList, s.dose_mg = mkRat 1 2) ∧
         (holdActive none none → holdList.length = 1) ∧
         (¬ holdActive none none → holdList = []))) := by
  rcases hg : generate_percent_taper_schedule (mkRat 3 10) "standard" (mkRat 1 2) (mkRat 1 2)
      none none 739447 "auto" with m | ⟨sched, td, w⟩
  · have hok : (generate_percent_taper_schedule (mkRat 3 10) "standard" (mkRat 1 2)
        (mkRat 1 2) none none 739447 "auto").isOk = true := by decide
    rw [hg] at hok
    exact Bool.noConfusion hok
  · exact ⟨sched, td, w, rfl, C10_theorem (mkRat 3 10) "standard" (mkRat 1 2) (mkRat 1 2)
      none none 739447 "auto" sched td w hg⟩

end BzdTaper
